import Mathlib

/-!
# Node energy aggregation (pkg/collector/node_energy.go)

A shallow embedding of the `NodeEnergy` aggregator of the collector package and
theorems about its per-domain totals.

Conventions of the embedding:

* Go `uint64` values are natural numbers; every operation that can leave the
  64-bit range is written with an explicit `% 2 ^ 64`.
* A Go `map[string]T` is an association list of key/value pairs. A lookup that
  finds nothing is `none`; for a map whose values are pointers this is the
  `nil` pointer, and reading a field through it is a run-time panic, which the
  embedding renders as the result `none` of the enclosing function.
* `float64` is an abstract type `F`; the conversion `uint64(x)` is a parameter
  `toUint64 : F → Nat` whose result is reduced into the 64-bit range.
* The calls to `fmt.Printf` in `SetValues` only write to standard output and
  are left out.
-/

namespace Kepler.Collector

/-! ## 64-bit unsigned arithmetic -/

/-- Go's `a + b` on `uint64`. -/
def addU64 (a b : Nat) : Nat := (a + b) % 2 ^ 64

/-- Go's `a - b` on `uint64`: the difference modulo `2 ^ 64`. -/
def subU64 (a b : Nat) : Nat := (a + (2 ^ 64 - b % 2 ^ 64)) % 2 ^ 64

/-! ## Delta counters -/

/-- Modelled from the spec: the type `UInt64Stat` is declared outside
`node_energy.go`. The source reads its field `Curr`; the spec (§3, Delta
Counter) gives it the computed delta of the interval (`currentDelta`, here
`Curr`) and the last observed cumulative reading (`previousRaw`). -/
structure UInt64Stat where
  Curr : Nat
  previousRaw : Nat
  deriving DecidableEq, Repr

/-- Modelled from the spec: the per-entity part of `update(entityID, rawValue)`
(§4.1), missing from the sources: `delta = rawValue - previousRaw` if
`rawValue ≥ previousRaw`, else `delta = rawValue`; then
`previousRaw = rawValue`. -/
def UInt64Stat.update (s : UInt64Stat) (rawValue : Nat) : UInt64Stat :=
  { Curr := if rawValue ≥ s.previousRaw then rawValue - s.previousRaw else rawValue
    previousRaw := rawValue }

/-- Modelled from the spec: the type `UInt64StatCollection` is declared outside
`node_energy.go`. The source shows its only field, `Stat`, a
`map[string]*UInt64Stat`. -/
structure UInt64StatCollection where
  Stat : List (String × UInt64Stat)
  deriving DecidableEq, Repr

/-- The map access `Stat[key]`: the entry stored under `key`, or `none` (the
`nil` pointer) when the map has no such key. -/
def statLookup (key : String) : List (String × UInt64Stat) → Option UInt64Stat
  | [] => none
  | (k, s) :: rest => if k = key then some s else statLookup key rest

/-- Modelled from the spec: map part of `update(entityID, rawValue)` (§4.1):
an entity is "created lazily the first time an entity ID is seen" (§3), with
`r_0 = 0` (§8), and otherwise updated in place. -/
def statUpdate (key : String) (rawValue : Nat) :
    List (String × UInt64Stat) → List (String × UInt64Stat)
  | [] => [(key, UInt64Stat.update { Curr := 0, previousRaw := 0 } rawValue)]
  | (k, s) :: rest =>
    if k = key then (k, s.update rawValue) :: rest
    else (k, s) :: statUpdate key rawValue rest

/-- Modelled from the spec: `UInt64StatCollection.AddStat`, missing from the
sources, is the `update(entityID, rawValue)` of §4.1. -/
def UInt64StatCollection.AddStat (c : UInt64StatCollection) (key : String)
    (rawValue : Nat) : UInt64StatCollection :=
  { Stat := statUpdate key rawValue c.Stat }

/-- Modelled from the spec: `UInt64StatCollection.Curr`, missing from the
sources, is `total()` of §3: the sum of `currentDelta` over all entries, a
`uint64`. -/
def UInt64StatCollection.Curr (c : UInt64StatCollection) : Nat :=
  (c.Stat.map (fun e => e.2.Curr)).sum % 2 ^ 64

/-- Modelled from the spec: `UInt64StatCollection.ResetCurr`, missing from the
sources, is `reset()` of §4.1: it "zeroes the delta for all tracked entities
without forgetting `previousRaw`". -/
def UInt64StatCollection.ResetCurr (c : UInt64StatCollection) : UInt64StatCollection :=
  { Stat := c.Stat.map (fun e => (e.1, { e.2 with Curr := 0 })) }

/-! ## The aggregator -/

/-- Modelled from the spec: `source.PackageEnergy` is declared in another
package; the source reads its four `uint64` fields `Core`, `DRAM`, `Uncore`
and `Pkg` (§6: the 4-tuple `{core, dram, uncore, package}`). -/
structure PackageEnergy where
  Core : Nat
  DRAM : Nat
  Uncore : Nat
  Pkg : Nat
  deriving DecidableEq, Repr

/-- Go's `strconv.Itoa`: the decimal text of an integer. -/
def Itoa (i : Int) : String := toString i

/-- The struct `NodeEnergy`; `F` stands for `float64`. -/
structure NodeEnergy (F : Type) where
  Usage : List (String × F)
  EnergyInCore : UInt64StatCollection
  EnergyInDRAM : UInt64StatCollection
  EnergyInUncore : UInt64StatCollection
  EnergyInPkg : UInt64StatCollection
  EnergyInGPU : Nat
  EnergyInOther : Nat
  SensorEnergy : UInt64StatCollection

/-- The constructor `NewNodeEnergy`: five empty collections; the remaining fields have Go's
zero values. -/
def NewNodeEnergy (F : Type) : NodeEnergy F :=
  { Usage := []
    EnergyInCore := { Stat := [] }
    EnergyInDRAM := { Stat := [] }
    EnergyInUncore := { Stat := [] }
    EnergyInPkg := { Stat := [] }
    EnergyInGPU := 0
    EnergyInOther := 0
    SensorEnergy := { Stat := [] } }

/-- The method `NodeEnergy.ResetCurr`. -/
def NodeEnergy.ResetCurr {F : Type} (v : NodeEnergy F) : NodeEnergy F :=
  { Usage := []
    EnergyInCore := v.EnergyInCore.ResetCurr
    EnergyInDRAM := v.EnergyInDRAM.ResetCurr
    EnergyInUncore := v.EnergyInUncore.ResetCurr
    EnergyInPkg := v.EnergyInPkg.ResetCurr
    EnergyInGPU := 0
    EnergyInOther := 0
    SensorEnergy := v.SensorEnergy.ResetCurr }

/-- Body of the first loop of `SetValues`, for one sensor reading. -/
def addSensor {F : Type} (toUint64 : F → Nat) (v : NodeEnergy F) (e : String × F) :
    NodeEnergy F :=
  { v with SensorEnergy := v.SensorEnergy.AddStat e.1 (toUint64 e.2 % 2 ^ 64) }

/-- Body of the second loop of `SetValues`, for one package reading. -/
def addPkg {F : Type} (v : NodeEnergy F) (e : Int × PackageEnergy) : NodeEnergy F :=
  let key := Itoa e.1
  { v with
    EnergyInCore := v.EnergyInCore.AddStat key e.2.Core
    EnergyInDRAM := v.EnergyInDRAM.AddStat key e.2.DRAM
    EnergyInUncore := v.EnergyInUncore.AddStat key e.2.Uncore
    EnergyInPkg := v.EnergyInPkg.AddStat key e.2.Pkg }

/-- The last part of `SetValues` (source lines 92 to 99), after the two loops:
store the GPU delta, derive `EnergyInOther`, store the usage map. -/
def setTotals {F : Type} (v : NodeEnergy F) (totalGPUDelta : Nat)
    (usage : List (String × F)) : NodeEnergy F :=
  let v1 := { v with EnergyInGPU := totalGPUDelta }
  let totalSensorDelta := v1.SensorEnergy.Curr
  let totalPkgDelta := v1.EnergyInPkg.Curr
  let v2 :=
    if totalSensorDelta > addU64 totalPkgDelta totalGPUDelta then
      { v1 with EnergyInOther := subU64 totalSensorDelta (addU64 totalPkgDelta totalGPUDelta) }
    else v1
  { v2 with Usage := usage }

/-- The method `NodeEnergy.SetValues`. The two input maps are given as the sequences in
which their entries are visited. -/
def NodeEnergy.SetValues {F : Type} (toUint64 : F → Nat) (v : NodeEnergy F)
    (sensorEnergy : List (String × F)) (pkgEnergy : List (Int × PackageEnergy))
    (totalGPUDelta : Nat) (usage : List (String × F)) : NodeEnergy F :=
  setTotals (pkgEnergy.foldl addPkg (sensorEnergy.foldl (addSensor toUint64) v))
    totalGPUDelta usage

/-- The method `NodeEnergy.getEnergyValue`: the `switch` over the six domain keys; any other
key leaves the result at its zero value. -/
def NodeEnergy.getEnergyValue {F : Type} (v : NodeEnergy F) (ekey : String) : Nat :=
  if ekey = "core" then v.EnergyInCore.Curr
  else if ekey = "dram" then v.EnergyInDRAM.Curr
  else if ekey = "uncore" then v.EnergyInUncore.Curr
  else if ekey = "pkg" then v.EnergyInPkg.Curr
  else if ekey = "gpu" then v.EnergyInGPU
  else if ekey = "other" then v.EnergyInOther
  else 0

/-- The method `NodeEnergy.GetPrometheusEnergyValue`. -/
def NodeEnergy.GetPrometheusEnergyValue {F : Type} (v : NodeEnergy F) (ekey : String) : Nat :=
  let val := v.getEnergyValue ekey
  if val = 0 then
    let uncoreVal := v.EnergyInUncore.Curr
    if ekey = "core" then
      subU64 (subU64 v.EnergyInPkg.Curr v.EnergyInDRAM.Curr) uncoreVal
    else if ekey = "dram" then
      let coreVal := v.EnergyInCore.Curr
      if coreVal > 0 then subU64 (subU64 v.EnergyInPkg.Curr coreVal) uncoreVal
      else val
    else val
  else val

/-- The method `NodeEnergy.Curr`. -/
def NodeEnergy.Curr {F : Type} (v : NodeEnergy F) : Nat :=
  addU64 (addU64 v.EnergyInPkg.Curr v.EnergyInGPU) v.EnergyInOther

/-- The method `NodeEnergy.GetCurrPerPkg`. Each of the four reads `Stat[pkgIDKey].Curr`
goes through the pointer stored in the map; on a `nil` pointer the function
panics, which is the result `none`. -/
def NodeEnergy.GetCurrPerPkg {F : Type} (v : NodeEnergy F) (pkgIDKey : String) :
    Option (Nat × Nat × Nat) :=
  match statLookup pkgIDKey v.EnergyInPkg.Stat with
  | none => none
  | some pkgStat =>
    match statLookup pkgIDKey v.EnergyInCore.Stat with
    | none => none
    | some coreStat =>
      match statLookup pkgIDKey v.EnergyInDRAM.Stat with
      | none => none
      | some dramStat =>
        match statLookup pkgIDKey v.EnergyInUncore.Stat with
        | none => none
        | some uncoreStat =>
          let pkgDelta := pkgStat.Curr
          let coreDelta := coreStat.Curr
          let dramDelta := dramStat.Curr
          let uncoreDelta := uncoreStat.Curr
          if coreDelta = 0 then
            some (subU64 (subU64 pkgDelta dramDelta) uncoreDelta, dramDelta, uncoreDelta)
          else if dramDelta = 0 then
            some (coreDelta, subU64 (subU64 pkgDelta coreDelta) uncoreDelta, uncoreDelta)
          else some (coreDelta, dramDelta, uncoreDelta)

/-! ## Concrete states used as test points -/

/-- The batch of the scenario of §8 applied to a fresh aggregator: sensor
`s1` reads 500, package 0 reads core 0, dram 100, uncore 20, pkg 300, and the
GPU delta is 50. -/
def scenarioState : NodeEnergy Nat :=
  ((NewNodeEnergy Nat).ResetCurr).SetValues id [("s1", 500)] [(0, ⟨0, 100, 20, 300⟩)] 50 []

/-- The same batch applied a second time with no `ResetCurr` in between: the
cumulative readings have not moved, so every delta of the interval is zero. -/
def scenarioTwice : NodeEnergy Nat :=
  scenarioState.SetValues id [("s1", 500)] [(0, ⟨0, 100, 20, 300⟩)] 50 []

/-- A batch whose package total is the largest `uint64` and whose GPU delta is
one, so that their 64-bit sum wraps around to zero; the sensor reads 5. -/
def wrapState : NodeEnergy Nat :=
  ((NewNodeEnergy Nat).ResetCurr).SetValues id [("s1", 5)]
    [(0, ⟨0, 0, 0, 2 ^ 64 - 1⟩)] 1 []

/-- A state with package total 100, dram total 30, uncore total 10 and no
core reading. -/
def derivedCoreState : NodeEnergy Nat :=
  ((NewNodeEnergy Nat).ResetCurr).SetValues id [] [(0, ⟨0, 30, 10, 100⟩)] 0 []

/-- A state with a measured core total 40, package total 100, uncore total 10
and no dram reading. -/
def derivedDramState : NodeEnergy Nat :=
  ((NewNodeEnergy Nat).ResetCurr).SetValues id [] [(0, ⟨40, 0, 10, 100⟩)] 0 []

/-- A state in which only the package total, 100, is measured. -/
def pkgOnlyState : NodeEnergy Nat :=
  ((NewNodeEnergy Nat).ResetCurr).SetValues id [] [(0, ⟨0, 0, 0, 100⟩)] 0 []

/-- A state in which the dram delta of the interval, 100, exceeds the package
delta, 50, and core is not measured. -/
def dramAbovePkgState : NodeEnergy Nat :=
  ((NewNodeEnergy Nat).ResetCurr).SetValues id [] [(0, ⟨0, 100, 0, 50⟩)] 0 []

/-- A state in which the measured core delta of the interval, 100, exceeds the
package delta, 50, and dram is not measured. -/
def coreAbovePkgState : NodeEnergy Nat :=
  ((NewNodeEnergy Nat).ResetCurr).SetValues id [] [(0, ⟨100, 0, 0, 50⟩)] 0 []

/-- One interval on a freshly constructed aggregator (`NewNodeEnergy`, then
`ResetCurr`, then `SetValues`) whose batch holds one sensor reading and one
package reading. -/
def firstInterval {F : Type} (toUint64 : F → Nat) (sensorID : String) (energy : F)
    (pkgID : Int) (pkgReading : PackageEnergy) (totalGPUDelta : Nat)
    (usage : List (String × F)) : NodeEnergy F :=
  ((NewNodeEnergy F).ResetCurr).SetValues toUint64 [(sensorID, energy)] [(pkgID, pkgReading)]
    totalGPUDelta usage

/-! ## Export row -/

/-- The expression `uint64(v.Usage[metric])`: the entry stored under `metric`
converted by `uint64(...)`; for a name the map does not hold, the map access
gives the zero value `0.0`, which converts to 0. -/
def usageUint64 {F : Type} (toUint64 : F → Nat) (metric : String) : List (String × F) → Nat
  | [] => 0
  | (k, x) :: rest => if k = metric then toUint64 x % 2 ^ 64 else usageUint64 toUint64 metric rest

/-- Go's `strconv.FormatUint(n, 10)`: the decimal text of an unsigned integer. -/
def FormatUint (n : Nat) : String := toString n

/-- The method `NodeEnergy.ToPrometheusValues`. The package-level variables
`nodeName`, `cpuArch`, `metricNames` and `ENERGY_LABEL_KEYS`, declared outside
`node_energy.go`, are parameters. Floating-point arithmetic is not modelled:
`float64 n` stands for the conversion `float64(n)`, `divThousand x` for
`x / 1000.0` and `sprintf x` for `fmt.Sprintf("%f", x)`. -/
def NodeEnergy.ToPrometheusValues {F : Type} (toUint64 : F → Nat) (float64 : Nat → F)
    (divThousand : F → F) (sprintf : F → String) (nodeName cpuArch : String)
    (metricNames ENERGY_LABEL_KEYS : List String) (v : NodeEnergy F) : List String :=
  let nodeValues := [nodeName, cpuArch]
  let nodeValues := metricNames.foldl
    (fun nodeValues metric => nodeValues ++ [FormatUint (usageUint64 toUint64 metric v.Usage)])
    nodeValues
  ENERGY_LABEL_KEYS.foldl
    (fun nodeValues ekey =>
      nodeValues ++ [sprintf (divThousand (float64 (v.GetPrometheusEnergyValue ekey)))])
    nodeValues

/-- A state whose usage map holds one metric, `cpu`, with value 12, on top of
the scenario of §8. -/
def usageState : NodeEnergy Nat :=
  ((NewNodeEnergy Nat).ResetCurr).SetValues id [("s1", 500)] [(0, ⟨0, 100, 20, 300⟩)] 50
    [("cpu", 12)]

/-! ## Reading decimal text back -/

/-- The value of a decimal digit character. -/
def digitValue (c : Char) : Nat := c.toNat - 48

/-- The number written by a sequence of decimal digits, continuing from the
number `acc` already read. -/
def decodeDigits (acc : Nat) (ds : List Char) : Nat :=
  ds.foldl (fun a c => a * 10 + digitValue c) acc

/-! ## Collections, batches and intervals -/

/-- The five delta-counter collections of the aggregator. -/
inductive Domain where
  | sensor
  | core
  | dram
  | uncore
  | pkg
  deriving DecidableEq, Repr

/-- The collection of a domain: the field of `NodeEnergy` that holds it. -/
def NodeEnergy.collection {F : Type} (v : NodeEnergy F) : Domain → UInt64StatCollection
  | Domain.sensor => v.SensorEnergy
  | Domain.core => v.EnergyInCore
  | Domain.dram => v.EnergyInDRAM
  | Domain.uncore => v.EnergyInUncore
  | Domain.pkg => v.EnergyInPkg

/-- The arguments of the calls `AddStat(key, raw)` that `SetValues` makes on
the collection of a domain, in the order of the calls: `sensorID` and
`uint64(energy)` for the sensor collection, `strconv.Itoa(pkgID)` and the
matching field of the package reading for the four package collections. -/
def readings {F : Type} (toUint64 : F → Nat) (sensorEnergy : List (String × F))
    (pkgEnergy : List (Int × PackageEnergy)) : Domain → List (String × Nat)
  | Domain.sensor => sensorEnergy.map (fun e => (e.1, toUint64 e.2 % 2 ^ 64))
  | Domain.core => pkgEnergy.map (fun e => (Itoa e.1, e.2.Core))
  | Domain.dram => pkgEnergy.map (fun e => (Itoa e.1, e.2.DRAM))
  | Domain.uncore => pkgEnergy.map (fun e => (Itoa e.1, e.2.Uncore))
  | Domain.pkg => pkgEnergy.map (fun e => (Itoa e.1, e.2.Pkg))

/-- The arguments of one call of `SetValues`. -/
structure Batch (F : Type) where
  sensorEnergy : List (String × F)
  pkgEnergy : List (Int × PackageEnergy)
  totalGPUDelta : Nat
  usage : List (String × F)

/-- The two reading maps of a batch are Go maps: no key occurs twice. -/
def Batch.WellFormed {F : Type} (b : Batch F) : Prop :=
  (b.sensorEnergy.map Prod.fst).Nodup ∧ (b.pkgEnergy.map Prod.fst).Nodup

/-- The batch gives the raw reading `r` to the entity `k` of domain `d`. -/
def Batch.Feeds {F : Type} (toUint64 : F → Nat) (d : Domain) (k : String) (b : Batch F)
    (r : Nat) : Prop :=
  b.WellFormed ∧ (k, r) ∈ readings toUint64 b.sensorEnergy b.pkgEnergy d

/-- The call of `SetValues` on a batch. -/
def NodeEnergy.apply {F : Type} (toUint64 : F → Nat) (v : NodeEnergy F) (b : Batch F) :
    NodeEnergy F :=
  v.SetValues toUint64 b.sensorEnergy b.pkgEnergy b.totalGPUDelta b.usage

/-- One polling interval: `ResetCurr`, then `SetValues` on the batch. -/
def interval {F : Type} (toUint64 : F → Nat) (v : NodeEnergy F) (b : Batch F) : NodeEnergy F :=
  v.ResetCurr.apply toUint64 b

/-- The state after a sequence of intervals on a freshly constructed
aggregator. -/
def run {F : Type} (toUint64 : F → Nat) (bs : List (Batch F)) : NodeEnergy F :=
  bs.foldl (interval toUint64) (NewNodeEnergy F)

/-- Every collection of the state is a Go map: no key occurs twice. -/
def NodeEnergy.WellFormed {F : Type} (v : NodeEnergy F) : Prop :=
  ∀ d : Domain, ((v.collection d).Stat.map Prod.fst).Nodup

/-- Two states that are equal as Go values: each of the five maps holds the
same entries in both (the two association lists are permutations of one
another), and the scalar fields and the usage map are equal. -/
def SameState {F : Type} (v w : NodeEnergy F) : Prop :=
  (∀ d : Domain, ((v.collection d).Stat).Perm ((w.collection d).Stat)) ∧
    v.EnergyInGPU = w.EnergyInGPU ∧ v.EnergyInOther = w.EnergyInOther ∧ v.Usage = w.Usage

/-- A batch with a single sensor reading for `s1` and nothing else. -/
def sensorBatch (r : Nat) : Batch Nat :=
  { sensorEnergy := [("s1", r)], pkgEnergy := [], totalGPUDelta := 0, usage := [] }

/-! ## Sum of the per-package core deltas -/

/-- The delta that a map holds for the key `k`, 0 when the map has no such
key. -/
def deltaOf (l : List (String × UInt64Stat)) (k : String) : Nat :=
  match statLookup k l with
  | some s => s.Curr
  | none => 0

/-- The `uint64` sum of the `coreDelta` that `GetCurrPerPkg` returns for each
package key of the list; no result when one of the calls panics. -/
def sumCoreDeltaPerPkg {F : Type} (v : NodeEnergy F) : List String → Option Nat
  | [] => some 0
  | k :: rest =>
    match v.GetCurrPerPkg k, sumCoreDeltaPerPkg v rest with
    | some r, some s => some (addU64 r.1 s)
    | _, _ => none

/-- A state with two packages and no core reading; in package 0 the dram
delta, 100, exceeds the package delta, 50. -/
def twoPkgState : NodeEnergy Nat :=
  ((NewNodeEnergy Nat).ResetCurr).SetValues id []
    [(0, ⟨0, 100, 0, 50⟩), (1, ⟨0, 0, 0, 100⟩)] 0 []

/-! ## Arithmetic lemmas -/

theorem subU64_of_le {a b : Nat} (hb : b ≤ a) (ha : a < 2 ^ 64) : subU64 a b = a - b := by
  unfold subU64
  have h1 : b % 2 ^ 64 = b := Nat.mod_eq_of_lt (lt_of_le_of_lt hb ha)
  rw [h1]
  omega

theorem subU64_lt (a b : Nat) : subU64 a b < 2 ^ 64 := by
  unfold subU64
  exact Nat.mod_lt _ (by norm_num)

theorem addU64_lt (a b : Nat) : addU64 a b < 2 ^ 64 := by
  unfold addU64
  exact Nat.mod_lt _ (by norm_num)

theorem subU64_zero {a : Nat} (ha : a < 2 ^ 64) : subU64 a 0 = a := by
  unfold subU64
  omega

theorem subU64_subU64 (a b c : Nat) :
    subU64 (subU64 a b) c = subU64 a (addU64 b c) := by
  unfold subU64 addU64
  omega

theorem curr_lt (c : UInt64StatCollection) : c.Curr < 2 ^ 64 := by
  unfold UInt64StatCollection.Curr
  exact Nat.mod_lt _ (by norm_num)

/-! ## What `SetValues` leaves in each field -/

theorem setTotals_pkg {F : Type} (v : NodeEnergy F) (g : Nat) (u : List (String × F)) :
    (setTotals v g u).EnergyInPkg = v.EnergyInPkg := by
  unfold setTotals
  dsimp only
  split <;> rfl

theorem setTotals_sensor {F : Type} (v : NodeEnergy F) (g : Nat) (u : List (String × F)) :
    (setTotals v g u).SensorEnergy = v.SensorEnergy := by
  unfold setTotals
  dsimp only
  split <;> rfl

theorem setTotals_other {F : Type} (v : NodeEnergy F) (g : Nat) (u : List (String × F)) :
    (setTotals v g u).EnergyInOther =
      if v.SensorEnergy.Curr > addU64 v.EnergyInPkg.Curr g then
        subU64 v.SensorEnergy.Curr (addU64 v.EnergyInPkg.Curr g)
      else v.EnergyInOther := by
  unfold setTotals
  dsimp only
  split <;> rfl

theorem foldl_addSensor_other {F : Type} (toUint64 : F → Nat) (l : List (String × F))
    (v : NodeEnergy F) :
    (l.foldl (addSensor toUint64) v).EnergyInOther = v.EnergyInOther := by
  induction l generalizing v with
  | nil => rfl
  | cons e rest ih => rw [List.foldl_cons, ih]; rfl

theorem foldl_addPkg_other {F : Type} (l : List (Int × PackageEnergy)) (v : NodeEnergy F) :
    (l.foldl addPkg v).EnergyInOther = v.EnergyInOther := by
  induction l generalizing v with
  | nil => rfl
  | cons e rest ih => rw [List.foldl_cons, ih]; rfl

theorem setValues_other {F : Type} (toUint64 : F → Nat) (v : NodeEnergy F)
    (sensorEnergy : List (String × F)) (pkgEnergy : List (Int × PackageEnergy))
    (totalGPUDelta : Nat) (usage : List (String × F)) :
    (v.SetValues toUint64 sensorEnergy pkgEnergy totalGPUDelta usage).EnergyInOther =
      if (v.SetValues toUint64 sensorEnergy pkgEnergy totalGPUDelta usage).SensorEnergy.Curr >
          addU64 (v.SetValues toUint64 sensorEnergy pkgEnergy totalGPUDelta usage).EnergyInPkg.Curr
            totalGPUDelta then
        subU64 (v.SetValues toUint64 sensorEnergy pkgEnergy totalGPUDelta usage).SensorEnergy.Curr
          (addU64 (v.SetValues toUint64 sensorEnergy pkgEnergy totalGPUDelta usage).EnergyInPkg.Curr
            totalGPUDelta)
      else v.EnergyInOther := by
  unfold NodeEnergy.SetValues
  rw [setTotals_other, setTotals_pkg, setTotals_sensor, foldl_addPkg_other,
    foldl_addSensor_other]

theorem resetCurr_other {F : Type} (v : NodeEnergy F) : v.ResetCurr.EnergyInOther = 0 := rfl

/-! ## Raw totals and derived totals -/

theorem getEnergyValue_core {F : Type} (v : NodeEnergy F) :
    v.getEnergyValue "core" = v.EnergyInCore.Curr := by
  simp [NodeEnergy.getEnergyValue]

theorem getEnergyValue_dram {F : Type} (v : NodeEnergy F) :
    v.getEnergyValue "dram" = v.EnergyInDRAM.Curr := by
  simp [NodeEnergy.getEnergyValue]

theorem getEnergyValue_uncore {F : Type} (v : NodeEnergy F) :
    v.getEnergyValue "uncore" = v.EnergyInUncore.Curr := by
  simp [NodeEnergy.getEnergyValue]

theorem getEnergyValue_pkg {F : Type} (v : NodeEnergy F) :
    v.getEnergyValue "pkg" = v.EnergyInPkg.Curr := by
  simp [NodeEnergy.getEnergyValue]

theorem getEnergyValue_gpu {F : Type} (v : NodeEnergy F) :
    v.getEnergyValue "gpu" = v.EnergyInGPU := by
  simp [NodeEnergy.getEnergyValue]

theorem getEnergyValue_other {F : Type} (v : NodeEnergy F) :
    v.getEnergyValue "other" = v.EnergyInOther := by
  simp [NodeEnergy.getEnergyValue]

theorem prometheus_core {F : Type} (v : NodeEnergy F) :
    v.GetPrometheusEnergyValue "core" =
      if v.EnergyInCore.Curr = 0 then
        subU64 (subU64 v.EnergyInPkg.Curr v.EnergyInDRAM.Curr) v.EnergyInUncore.Curr
      else v.EnergyInCore.Curr := by
  simp [NodeEnergy.GetPrometheusEnergyValue, getEnergyValue_core]

theorem prometheus_dram {F : Type} (v : NodeEnergy F) :
    v.GetPrometheusEnergyValue "dram" =
      if v.EnergyInDRAM.Curr = 0 then
        if v.EnergyInCore.Curr > 0 then
          subU64 (subU64 v.EnergyInPkg.Curr v.EnergyInCore.Curr) v.EnergyInUncore.Curr
        else 0
      else v.EnergyInDRAM.Curr := by
  simp only [NodeEnergy.GetPrometheusEnergyValue, getEnergyValue_dram]
  by_cases h : v.EnergyInDRAM.Curr = 0
  · simp [h]
  · simp [h]

theorem prometheus_uncore {F : Type} (v : NodeEnergy F) :
    v.GetPrometheusEnergyValue "uncore" = v.EnergyInUncore.Curr := by
  simp only [NodeEnergy.GetPrometheusEnergyValue, getEnergyValue_uncore]
  by_cases h : v.EnergyInUncore.Curr = 0
  · simp [h]
  · simp [h]

theorem prometheus_pkg {F : Type} (v : NodeEnergy F) :
    v.GetPrometheusEnergyValue "pkg" = v.EnergyInPkg.Curr := by
  simp only [NodeEnergy.GetPrometheusEnergyValue, getEnergyValue_pkg]
  by_cases h : v.EnergyInPkg.Curr = 0
  · simp [h]
  · simp [h]

theorem prometheus_gpu {F : Type} (v : NodeEnergy F) :
    v.GetPrometheusEnergyValue "gpu" = v.EnergyInGPU := by
  simp only [NodeEnergy.GetPrometheusEnergyValue, getEnergyValue_gpu]
  by_cases h : v.EnergyInGPU = 0
  · simp [h]
  · simp [h]

theorem prometheus_other {F : Type} (v : NodeEnergy F) :
    v.GetPrometheusEnergyValue "other" = v.EnergyInOther := by
  simp only [NodeEnergy.GetPrometheusEnergyValue, getEnergyValue_other]
  by_cases h : v.EnergyInOther = 0
  · simp [h]
  · simp [h]

/-! ## C1: the residual "other" energy after `SetValues` -/

/-- C1, as stated, fails: when `SetValues` runs a second time without a
`ResetCurr` in between and the sensor total (0) does not exceed package total
plus GPU delta (0 + 50), `EnergyInOther` is not 0 but still holds the 150 of
the earlier call. -/
theorem c1_other_not_cleared :
    ¬ (scenarioTwice.SensorEnergy.Curr > addU64 scenarioTwice.EnergyInPkg.Curr 50) ∧
      scenarioTwice.EnergyInOther = 150 ∧ scenarioTwice.EnergyInOther ≠ 0 := by
  decide

/-- C1, amended: after `SetValues`, `EnergyInOther` equals
`sensorTotal - pkgTotal - gpuDelta` (in `uint64`) when
`sensorTotal > pkgTotal + gpuDelta` (the 64-bit sum), and otherwise keeps the
value it had before the call; that value is 0 when `ResetCurr` came right
before the call. The totals are those after the batch has been applied. -/
theorem c1_setValues_other {F : Type} (toUint64 : F → Nat) (v : NodeEnergy F)
    (sensorEnergy : List (String × F)) (pkgEnergy : List (Int × PackageEnergy))
    (totalGPUDelta : Nat) (usage : List (String × F)) :
    ((v.SetValues toUint64 sensorEnergy pkgEnergy totalGPUDelta usage).EnergyInOther =
      if (v.SetValues toUint64 sensorEnergy pkgEnergy totalGPUDelta usage).SensorEnergy.Curr >
          addU64 (v.SetValues toUint64 sensorEnergy pkgEnergy totalGPUDelta usage).EnergyInPkg.Curr
            totalGPUDelta then
        subU64
          (subU64 (v.SetValues toUint64 sensorEnergy pkgEnergy totalGPUDelta usage).SensorEnergy.Curr
            (v.SetValues toUint64 sensorEnergy pkgEnergy totalGPUDelta usage).EnergyInPkg.Curr)
          totalGPUDelta
      else v.EnergyInOther) ∧
    ((v.ResetCurr.SetValues toUint64 sensorEnergy pkgEnergy totalGPUDelta usage).EnergyInOther =
      if (v.ResetCurr.SetValues toUint64 sensorEnergy pkgEnergy totalGPUDelta
            usage).SensorEnergy.Curr >
          addU64 (v.ResetCurr.SetValues toUint64 sensorEnergy pkgEnergy totalGPUDelta
            usage).EnergyInPkg.Curr totalGPUDelta then
        subU64
          (subU64 (v.ResetCurr.SetValues toUint64 sensorEnergy pkgEnergy totalGPUDelta
              usage).SensorEnergy.Curr
            (v.ResetCurr.SetValues toUint64 sensorEnergy pkgEnergy totalGPUDelta
              usage).EnergyInPkg.Curr)
          totalGPUDelta
      else 0) := by
  constructor
  · rw [setValues_other, subU64_subU64]
  · rw [setValues_other, subU64_subU64, resetCurr_other]

/-! ## C2: the residual against unbounded integers -/

/-- C2, as stated, fails: with package total `2 ^ 64 - 1` and GPU delta 1 the
64-bit sum wraps to 0, the sensor total 5 exceeds it, and `EnergyInOther`
becomes 5, whereas `max 0 (5 - (2 ^ 64 - 1) - 1)` over the integers is 0. -/
theorem c2_wrapping_sum_changes_other :
    wrapState.SensorEnergy.Curr = 5 ∧ wrapState.EnergyInPkg.Curr = 2 ^ 64 - 1 ∧
      wrapState.EnergyInGPU = 1 ∧
      (wrapState.EnergyInOther : Int) ≠
        max 0 ((wrapState.SensorEnergy.Curr : Int) - (wrapState.EnergyInPkg.Curr : Int) - 1) := by
  decide

/-- C2, amended: whenever `pkgTotal + gpuDelta` stays within the `uint64`
range, after `ResetCurr` followed by `SetValues` the field `EnergyInOther`
equals `max 0 (sensorTotal - pkgTotal - gpuDelta)` computed over the unbounded
integers. -/
theorem c2_other_is_clamped_difference {F : Type} (toUint64 : F → Nat) (v : NodeEnergy F)
    (sensorEnergy : List (String × F)) (pkgEnergy : List (Int × PackageEnergy))
    (totalGPUDelta : Nat) (usage : List (String × F))
    (hsum : (v.ResetCurr.SetValues toUint64 sensorEnergy pkgEnergy totalGPUDelta
      usage).EnergyInPkg.Curr + totalGPUDelta < 2 ^ 64) :
    ((v.ResetCurr.SetValues toUint64 sensorEnergy pkgEnergy totalGPUDelta
        usage).EnergyInOther : Int) =
      max 0
        (((v.ResetCurr.SetValues toUint64 sensorEnergy pkgEnergy totalGPUDelta
            usage).SensorEnergy.Curr : Int) -
          ((v.ResetCurr.SetValues toUint64 sensorEnergy pkgEnergy totalGPUDelta
            usage).EnergyInPkg.Curr : Int) - (totalGPUDelta : Int)) := by
  rw [setValues_other, resetCurr_other]
  have hlt := curr_lt (v.ResetCurr.SetValues toUint64 sensorEnergy pkgEnergy totalGPUDelta
    usage).SensorEnergy
  generalize (v.ResetCurr.SetValues toUint64 sensorEnergy pkgEnergy totalGPUDelta
    usage).SensorEnergy.Curr = s at *
  generalize (v.ResetCurr.SetValues toUint64 sensorEnergy pkgEnergy totalGPUDelta
    usage).EnergyInPkg.Curr = p at *
  have hadd : addU64 p totalGPUDelta = p + totalGPUDelta := Nat.mod_eq_of_lt hsum
  rw [hadd]
  by_cases h : s > p + totalGPUDelta
  · rw [if_pos h]
    rw [subU64_of_le (le_of_lt h) hlt]
    omega
  · rw [if_neg h]
    omega

/-- C2, amended, at the scenario of §8: 300 + 50 fits, and the residual is
`max 0 (500 - 300 - 50) = 150`. -/
theorem c2_other_is_clamped_difference_witness :
    (((NewNodeEnergy Nat).ResetCurr.SetValues id [("s1", 500)] [(0, ⟨0, 100, 20, 300⟩)] 50
        []).EnergyInOther : Int) =
      max 0
        ((((NewNodeEnergy Nat).ResetCurr.SetValues id [("s1", 500)] [(0, ⟨0, 100, 20, 300⟩)] 50
            []).SensorEnergy.Curr : Int) -
          (((NewNodeEnergy Nat).ResetCurr.SetValues id [("s1", 500)] [(0, ⟨0, 100, 20, 300⟩)] 50
            []).EnergyInPkg.Curr : Int) - ((50 : Nat) : Int)) :=
  c2_other_is_clamped_difference id (NewNodeEnergy Nat) [("s1", 500)]
    [(0, ⟨0, 100, 20, 300⟩)] 50 [] (by decide)

/-! ## C3 to C6: derivation of a missing core or dram total -/

/-- C3: `GetPrometheusEnergyValue "core"` is the core total when that total is
non-zero, and the `uint64` difference package - dram - uncore when the core
total is zero; with package 100, dram 30, uncore 10 and core 0 it is 60. -/
theorem c3_core_total_or_derived {F : Type} (v : NodeEnergy F) :
    (v.EnergyInCore.Curr ≠ 0 → v.GetPrometheusEnergyValue "core" = v.EnergyInCore.Curr) ∧
    (v.EnergyInCore.Curr = 0 →
      v.GetPrometheusEnergyValue "core" =
        subU64 (subU64 v.EnergyInPkg.Curr v.EnergyInDRAM.Curr) v.EnergyInUncore.Curr) ∧
    (v.EnergyInPkg.Curr = 100 → v.EnergyInDRAM.Curr = 30 → v.EnergyInUncore.Curr = 10 →
      v.EnergyInCore.Curr = 0 → v.GetPrometheusEnergyValue "core" = 60) := by
  refine ⟨fun h => ?_, fun h => ?_, fun hp hd hu hc => ?_⟩
  · rw [prometheus_core, if_neg h]
  · rw [prometheus_core, if_pos h]
  · rw [prometheus_core, if_pos hc, hp, hd, hu]
    decide

/-- C3 at concrete states: a measured core total of 40 is returned as it is,
and package 100, dram 30, uncore 10, core 0 give 60. -/
theorem c3_core_total_or_derived_witness :
    derivedDramState.GetPrometheusEnergyValue "core" = derivedDramState.EnergyInCore.Curr ∧
    derivedCoreState.GetPrometheusEnergyValue "core" =
      subU64 (subU64 derivedCoreState.EnergyInPkg.Curr derivedCoreState.EnergyInDRAM.Curr)
        derivedCoreState.EnergyInUncore.Curr ∧
    derivedCoreState.GetPrometheusEnergyValue "core" = 60 :=
  ⟨(c3_core_total_or_derived derivedDramState).1 (by decide),
   (c3_core_total_or_derived derivedCoreState).2.1 (by decide),
   (c3_core_total_or_derived derivedCoreState).2.2 (by decide) (by decide) (by decide)
     (by decide)⟩

/-- C4: when the core, dram and uncore totals are all zero and the package
total is `P`, `GetPrometheusEnergyValue "core"` is `P` and
`GetPrometheusEnergyValue "dram"` is 0. -/
theorem c4_dual_missing_collapse {F : Type} (v : NodeEnergy F) (P : Nat)
    (hcore : v.EnergyInCore.Curr = 0) (hdram : v.EnergyInDRAM.Curr = 0)
    (huncore : v.EnergyInUncore.Curr = 0) (hpkg : v.EnergyInPkg.Curr = P) :
    v.GetPrometheusEnergyValue "core" = P ∧ v.GetPrometheusEnergyValue "dram" = 0 := by
  have hP : P < 2 ^ 64 := hpkg ▸ curr_lt v.EnergyInPkg
  constructor
  · rw [prometheus_core, if_pos hcore, hdram, huncore, hpkg, subU64_zero hP, subU64_zero hP]
  · rw [prometheus_dram, if_pos hdram, hcore]
    rfl

/-- C4 at `P = 100`. -/
theorem c4_dual_missing_collapse_witness :
    pkgOnlyState.GetPrometheusEnergyValue "core" = 100 ∧
      pkgOnlyState.GetPrometheusEnergyValue "dram" = 0 :=
  c4_dual_missing_collapse pkgOnlyState 100 (by decide) (by decide) (by decide) (by decide)

/-- C5: when the dram total is zero and the core total is positive,
`GetPrometheusEnergyValue "dram"` is the `uint64` difference
package - core - uncore; when the dram total is non-zero it is that total. -/
theorem c5_dram_total_or_derived {F : Type} (v : NodeEnergy F) :
    (v.EnergyInDRAM.Curr = 0 → v.EnergyInCore.Curr > 0 →
      v.GetPrometheusEnergyValue "dram" =
        subU64 (subU64 v.EnergyInPkg.Curr v.EnergyInCore.Curr) v.EnergyInUncore.Curr) ∧
    (v.EnergyInDRAM.Curr ≠ 0 → v.GetPrometheusEnergyValue "dram" = v.EnergyInDRAM.Curr) := by
  refine ⟨fun hd hc => ?_, fun hd => ?_⟩
  · rw [prometheus_dram, if_pos hd, if_pos hc]
  · rw [prometheus_dram, if_neg hd]

/-- C5 at concrete states: package 100, core 40, uncore 10 and no dram reading
give dram 50; a measured dram total of 100 is returned as it is. -/
theorem c5_dram_total_or_derived_witness :
    derivedDramState.GetPrometheusEnergyValue "dram" =
      subU64 (subU64 derivedDramState.EnergyInPkg.Curr derivedDramState.EnergyInCore.Curr)
        derivedDramState.EnergyInUncore.Curr ∧
    scenarioState.GetPrometheusEnergyValue "dram" = scenarioState.EnergyInDRAM.Curr :=
  ⟨(c5_dram_total_or_derived derivedDramState).1 (by decide) (by decide),
   (c5_dram_total_or_derived scenarioState).2 (by decide)⟩

/-- C6 fails on the code: with package total 50, dram total 100 and no core
reading the derived core value wraps around to `2 ^ 64 - 50`, and with package
total 50, core total 100 and no dram reading the derived dram value does the
same; neither is at most the package total. -/
theorem c6_derivation_wraps_around :
    dramAbovePkgState.EnergyInCore.Curr = 0 ∧ dramAbovePkgState.EnergyInPkg.Curr = 50 ∧
    dramAbovePkgState.GetPrometheusEnergyValue "core" = 2 ^ 64 - 50 ∧
    ¬ (dramAbovePkgState.GetPrometheusEnergyValue "core" ≤ dramAbovePkgState.EnergyInPkg.Curr) ∧
    coreAbovePkgState.EnergyInDRAM.Curr = 0 ∧ coreAbovePkgState.EnergyInCore.Curr = 100 ∧
    coreAbovePkgState.EnergyInPkg.Curr = 50 ∧
    coreAbovePkgState.GetPrometheusEnergyValue "dram" = 2 ^ 64 - 50 ∧
    ¬ (coreAbovePkgState.GetPrometheusEnergyValue "dram" ≤ coreAbovePkgState.EnergyInPkg.Curr) := by
  decide

/-! ## C7: the node total -/

/-- C7: in every state, and so in every state reached by `SetValues`, `Curr`
is the `uint64` sum of `GetPrometheusEnergyValue` at "pkg", "gpu" and "other",
each of which is the raw value, whether or not it is zero. -/
theorem c7_node_total_identity {F : Type} (toUint64 : F → Nat) (v : NodeEnergy F)
    (sensorEnergy : List (String × F)) (pkgEnergy : List (Int × PackageEnergy))
    (totalGPUDelta : Nat) (usage : List (String × F)) :
    (v.Curr =
      addU64 (addU64 (v.GetPrometheusEnergyValue "pkg") (v.GetPrometheusEnergyValue "gpu"))
        (v.GetPrometheusEnergyValue "other")) ∧
    ((v.SetValues toUint64 sensorEnergy pkgEnergy totalGPUDelta usage).Curr =
      addU64
        (addU64
          ((v.SetValues toUint64 sensorEnergy pkgEnergy totalGPUDelta
            usage).GetPrometheusEnergyValue "pkg")
          ((v.SetValues toUint64 sensorEnergy pkgEnergy totalGPUDelta
            usage).GetPrometheusEnergyValue "gpu"))
        ((v.SetValues toUint64 sensorEnergy pkgEnergy totalGPUDelta
          usage).GetPrometheusEnergyValue "other")) ∧
    v.GetPrometheusEnergyValue "pkg" = v.EnergyInPkg.Curr ∧
    v.GetPrometheusEnergyValue "gpu" = v.EnergyInGPU ∧
    v.GetPrometheusEnergyValue "other" = v.EnergyInOther := by
  refine ⟨?_, ?_, prometheus_pkg v, prometheus_gpu v, prometheus_other v⟩
  · rw [prometheus_pkg, prometheus_gpu, prometheus_other]
    rfl
  · rw [prometheus_pkg, prometheus_gpu, prometheus_other]
    rfl

/-! ## C8: the scenario on a fresh aggregator -/

theorem firstInterval_sensor {F : Type} (toUint64 : F → Nat) (sensorID : String) (energy : F)
    (pkgID : Int) (r : PackageEnergy) (G : Nat) (usage : List (String × F)) :
    (firstInterval toUint64 sensorID energy pkgID r G usage).SensorEnergy.Curr =
      toUint64 energy % 2 ^ 64 := by
  unfold firstInterval NodeEnergy.SetValues
  rw [setTotals_sensor]
  simp [addPkg, addSensor, NewNodeEnergy, NodeEnergy.ResetCurr, UInt64StatCollection.ResetCurr,
    UInt64StatCollection.AddStat, UInt64StatCollection.Curr, statUpdate, UInt64Stat.update]

theorem firstInterval_pkg {F : Type} (toUint64 : F → Nat) (sensorID : String) (energy : F)
    (pkgID : Int) (r : PackageEnergy) (G : Nat) (usage : List (String × F)) :
    (firstInterval toUint64 sensorID energy pkgID r G usage).EnergyInPkg.Curr =
      r.Pkg % 2 ^ 64 := by
  unfold firstInterval NodeEnergy.SetValues
  rw [setTotals_pkg]
  simp [addPkg, addSensor, NewNodeEnergy, NodeEnergy.ResetCurr, UInt64StatCollection.ResetCurr,
    UInt64StatCollection.AddStat, UInt64StatCollection.Curr, statUpdate, UInt64Stat.update]

theorem setTotals_core {F : Type} (v : NodeEnergy F) (g : Nat) (u : List (String × F)) :
    (setTotals v g u).EnergyInCore = v.EnergyInCore := by
  unfold setTotals
  dsimp only
  split <;> rfl

theorem setTotals_dram {F : Type} (v : NodeEnergy F) (g : Nat) (u : List (String × F)) :
    (setTotals v g u).EnergyInDRAM = v.EnergyInDRAM := by
  unfold setTotals
  dsimp only
  split <;> rfl

theorem setTotals_uncore {F : Type} (v : NodeEnergy F) (g : Nat) (u : List (String × F)) :
    (setTotals v g u).EnergyInUncore = v.EnergyInUncore := by
  unfold setTotals
  dsimp only
  split <;> rfl

theorem setTotals_gpu {F : Type} (v : NodeEnergy F) (g : Nat) (u : List (String × F)) :
    (setTotals v g u).EnergyInGPU = g := by
  unfold setTotals
  dsimp only
  split <;> rfl

theorem firstInterval_core {F : Type} (toUint64 : F → Nat) (sensorID : String) (energy : F)
    (pkgID : Int) (r : PackageEnergy) (G : Nat) (usage : List (String × F)) :
    (firstInterval toUint64 sensorID energy pkgID r G usage).EnergyInCore.Curr =
      r.Core % 2 ^ 64 := by
  unfold firstInterval NodeEnergy.SetValues
  rw [setTotals_core]
  simp [addPkg, addSensor, NewNodeEnergy, NodeEnergy.ResetCurr, UInt64StatCollection.ResetCurr,
    UInt64StatCollection.AddStat, UInt64StatCollection.Curr, statUpdate, UInt64Stat.update]

theorem firstInterval_dram {F : Type} (toUint64 : F → Nat) (sensorID : String) (energy : F)
    (pkgID : Int) (r : PackageEnergy) (G : Nat) (usage : List (String × F)) :
    (firstInterval toUint64 sensorID energy pkgID r G usage).EnergyInDRAM.Curr =
      r.DRAM % 2 ^ 64 := by
  unfold firstInterval NodeEnergy.SetValues
  rw [setTotals_dram]
  simp [addPkg, addSensor, NewNodeEnergy, NodeEnergy.ResetCurr, UInt64StatCollection.ResetCurr,
    UInt64StatCollection.AddStat, UInt64StatCollection.Curr, statUpdate, UInt64Stat.update]

theorem firstInterval_uncore {F : Type} (toUint64 : F → Nat) (sensorID : String) (energy : F)
    (pkgID : Int) (r : PackageEnergy) (G : Nat) (usage : List (String × F)) :
    (firstInterval toUint64 sensorID energy pkgID r G usage).EnergyInUncore.Curr =
      r.Uncore % 2 ^ 64 := by
  unfold firstInterval NodeEnergy.SetValues
  rw [setTotals_uncore]
  simp [addPkg, addSensor, NewNodeEnergy, NodeEnergy.ResetCurr, UInt64StatCollection.ResetCurr,
    UInt64StatCollection.AddStat, UInt64StatCollection.Curr, statUpdate, UInt64Stat.update]

theorem firstInterval_gpu {F : Type} (toUint64 : F → Nat) (sensorID : String) (energy : F)
    (pkgID : Int) (r : PackageEnergy) (G : Nat) (usage : List (String × F)) :
    (firstInterval toUint64 sensorID energy pkgID r G usage).EnergyInGPU = G := by
  unfold firstInterval NodeEnergy.SetValues
  rw [setTotals_gpu]

theorem firstInterval_other {F : Type} (toUint64 : F → Nat) (sensorID : String) (energy : F)
    (pkgID : Int) (r : PackageEnergy) (G : Nat) (usage : List (String × F)) :
    (firstInterval toUint64 sensorID energy pkgID r G usage).EnergyInOther =
      if toUint64 energy % 2 ^ 64 > addU64 (r.Pkg % 2 ^ 64) G then
        subU64 (toUint64 energy % 2 ^ 64) (addU64 (r.Pkg % 2 ^ 64) G)
      else 0 := by
  have h := setValues_other toUint64 (NewNodeEnergy F).ResetCurr [(sensorID, energy)]
    [(pkgID, r)] G usage
  have hs := firstInterval_sensor toUint64 sensorID energy pkgID r G usage
  have hp := firstInterval_pkg toUint64 sensorID energy pkgID r G usage
  unfold firstInterval at hs hp ⊢
  rw [hs, hp, resetCurr_other] at h
  exact h

/-- C8: on a freshly constructed aggregator, a batch with one sensor reading
converting to `S`, one package reading with core 0, dram `D`, uncore `U`,
pkg `P`, and GPU delta `G`, where `D > 0`, `D + U ≤ P` and `S > P + G`, gives
core `P - D - U`, dram `D`, other `S - P - G` and node total `S`. -/
theorem c8_first_interval_scenario {F : Type} (toUint64 : F → Nat) (sensorID : String)
    (energy : F) (pkgID : Int) (S D U P G : Nat) (usage : List (String × F))
    (hS : toUint64 energy % 2 ^ 64 = S) (hD : D > 0) (hDU : D + U ≤ P) (hSPG : S > P + G) :
    (firstInterval toUint64 sensorID energy pkgID ⟨0, D, U, P⟩ G
        usage).GetPrometheusEnergyValue "core" = P - D - U ∧
    (firstInterval toUint64 sensorID energy pkgID ⟨0, D, U, P⟩ G
        usage).GetPrometheusEnergyValue "dram" = D ∧
    (firstInterval toUint64 sensorID energy pkgID ⟨0, D, U, P⟩ G
        usage).GetPrometheusEnergyValue "other" = S - P - G ∧
    (firstInterval toUint64 sensorID energy pkgID ⟨0, D, U, P⟩ G usage).Curr = S := by
  have hS64 : S < 2 ^ 64 := hS ▸ Nat.mod_lt _ (by norm_num)
  have hP : P % 2 ^ 64 = P := Nat.mod_eq_of_lt (by omega)
  have hDm : D % 2 ^ 64 = D := Nat.mod_eq_of_lt (by omega)
  have hUm : U % 2 ^ 64 = U := Nat.mod_eq_of_lt (by omega)
  have hadd : addU64 P G = P + G := Nat.mod_eq_of_lt (by omega)
  have hother : (firstInterval toUint64 sensorID energy pkgID ⟨0, D, U, P⟩ G
      usage).EnergyInOther = S - (P + G) := by
    rw [firstInterval_other, hS]
    dsimp only
    rw [hP, hadd, if_pos hSPG, subU64_of_le (le_of_lt hSPG) hS64]
  refine ⟨?_, ?_, ?_, ?_⟩
  · rw [prometheus_core, firstInterval_core, firstInterval_pkg, firstInterval_dram,
      firstInterval_uncore]
    dsimp only
    have hPlt : P < 2 ^ 64 := by omega
    have h1 : subU64 P D = P - D := subU64_of_le (by omega) hPlt
    have h2 : subU64 (P - D) U = P - D - U := subU64_of_le (by omega) (by omega)
    rw [hP, hDm, hUm, if_pos (by decide), h1, h2]
  · rw [prometheus_dram, firstInterval_dram]
    dsimp only
    rw [hDm, if_neg (by omega)]
  · rw [prometheus_other, hother]
    omega
  · unfold NodeEnergy.Curr
    rw [hother, firstInterval_pkg, firstInterval_gpu]
    dsimp only
    rw [hP, hadd]
    unfold addU64
    rw [Nat.add_sub_cancel' (le_of_lt hSPG)]
    exact Nat.mod_eq_of_lt hS64

/-- C8 at the scenario of §8: `S = 500`, `D = 100`, `U = 20`, `P = 300`,
`G = 50` give 180, 100, 150 and 500. -/
theorem c8_first_interval_scenario_witness :
    (firstInterval id "s1" 500 0 ⟨0, 100, 20, 300⟩ 50
        [("cpu", 12)]).GetPrometheusEnergyValue "core" = 180 ∧
    (firstInterval id "s1" 500 0 ⟨0, 100, 20, 300⟩ 50
        [("cpu", 12)]).GetPrometheusEnergyValue "dram" = 100 ∧
    (firstInterval id "s1" 500 0 ⟨0, 100, 20, 300⟩ 50
        [("cpu", 12)]).GetPrometheusEnergyValue "other" = 150 ∧
    (firstInterval id "s1" 500 0 ⟨0, 100, 20, 300⟩ 50 [("cpu", 12)]).Curr = 500 :=
  c8_first_interval_scenario id "s1" 500 0 500 100 20 300 50 [("cpu", 12)] (by decide)
    (by decide) (by decide) (by decide)

/-! ## C9 and C10: the per-package breakdown -/

theorem curr_singleton (c : UInt64StatCollection) (k : String) (st : UInt64Stat)
    (h : c.Stat = [(k, st)]) (hb : st.Curr < 2 ^ 64) : c.Curr = st.Curr := by
  unfold UInt64StatCollection.Curr
  rw [h]
  simpa using Nat.mod_eq_of_lt hb

theorem statLookup_singleton (k : String) (st : UInt64Stat) :
    statLookup k [(k, st)] = some st := by
  simp [statLookup]

/-- C9: when each of the four package-keyed collections holds exactly one
entry, under the same key `k` (with `uint64` deltas), `GetCurrPerPkg k` returns
the triple of `GetPrometheusEnergyValue` at "core", "dram" and "uncore". -/
theorem c9_per_pkg_matches_totals {F : Type} (v : NodeEnergy F) (k : String)
    (coreStat dramStat uncoreStat pkgStat : UInt64Stat)
    (hcore : v.EnergyInCore.Stat = [(k, coreStat)])
    (hdram : v.EnergyInDRAM.Stat = [(k, dramStat)])
    (huncore : v.EnergyInUncore.Stat = [(k, uncoreStat)])
    (hpkg : v.EnergyInPkg.Stat = [(k, pkgStat)])
    (bcore : coreStat.Curr < 2 ^ 64) (bdram : dramStat.Curr < 2 ^ 64)
    (buncore : uncoreStat.Curr < 2 ^ 64) (bpkg : pkgStat.Curr < 2 ^ 64) :
    v.GetCurrPerPkg k =
      some (v.GetPrometheusEnergyValue "core", v.GetPrometheusEnergyValue "dram",
        v.GetPrometheusEnergyValue "uncore") := by
  rw [prometheus_core, prometheus_dram, prometheus_uncore,
    curr_singleton v.EnergyInCore k coreStat hcore bcore,
    curr_singleton v.EnergyInDRAM k dramStat hdram bdram,
    curr_singleton v.EnergyInUncore k uncoreStat huncore buncore,
    curr_singleton v.EnergyInPkg k pkgStat hpkg bpkg]
  unfold NodeEnergy.GetCurrPerPkg
  rw [hcore, hdram, huncore, hpkg]
  simp only [statLookup_singleton]
  by_cases h0 : coreStat.Curr = 0
  · by_cases h1 : dramStat.Curr = 0
    · simp [h0, h1]
    · simp [h0, h1]
  · have hpos : coreStat.Curr > 0 := Nat.pos_of_ne_zero h0
    by_cases h1 : dramStat.Curr = 0
    · simp [h0, h1, hpos]
    · simp [h0, h1]

/-- C9 at the scenario of §8, whose collections hold the single package "0":
the breakdown of that package is (180, 100, 20). -/
theorem c9_per_pkg_matches_totals_witness :
    scenarioState.GetCurrPerPkg "0" =
      some (scenarioState.GetPrometheusEnergyValue "core",
        scenarioState.GetPrometheusEnergyValue "dram",
        scenarioState.GetPrometheusEnergyValue "uncore") ∧
    scenarioState.GetCurrPerPkg "0" = some (180, 100, 20) :=
  ⟨c9_per_pkg_matches_totals scenarioState "0" ⟨0, 0⟩ ⟨100, 100⟩ ⟨20, 20⟩ ⟨300, 300⟩
      (by decide) (by decide) (by decide) (by decide) (by decide) (by decide) (by decide)
      (by decide),
    by decide⟩

/-- C10 fails on the code: for a package key that the maps do not hold, the
lookup `Stat[pkgIDKey]` is the `nil` pointer and reading `.Curr` through it
panics, so `GetCurrPerPkg` returns no result: on a freshly constructed
aggregator with key "0", and after the scenario batch (package 0 only) with
key "1", whereas the known key "0" gives (180, 100, 20). -/
theorem c10_unknown_key_has_no_result :
    (NewNodeEnergy Nat).GetCurrPerPkg "0" = none ∧
    scenarioState.GetCurrPerPkg "1" = none ∧
    scenarioState.GetCurrPerPkg "0" = some (180, 100, 20) := by
  decide

/-! ## C11 to C13: reset, fresh aggregator, values stored verbatim -/

theorem resetCurr_curr (c : UInt64StatCollection) : c.ResetCurr.Curr = 0 := by
  unfold UInt64StatCollection.Curr UInt64StatCollection.ResetCurr
  have h : ∀ l : List (String × UInt64Stat),
      ((l.map (fun e => (e.1, { e.2 with Curr := 0 }))).map (fun e => e.2.Curr)).sum = 0 := by
    intro l
    induction l with
    | nil => rfl
    | cons e rest ih => simpa using ih
  rw [h]
  rfl

theorem resetCurr_resetCurr (c : UInt64StatCollection) : c.ResetCurr.ResetCurr = c.ResetCurr := by
  unfold UInt64StatCollection.ResetCurr
  simp [List.map_map, Function.comp_def]

theorem subU64_zero_zero : subU64 (subU64 0 0) 0 = 0 := by decide

/-- C11: after `ResetCurr` the usage map is empty, `EnergyInGPU` and
`EnergyInOther` are 0, `GetPrometheusEnergyValue` is 0 at each of the six keys
and `Curr` is 0; and `ResetCurr` is idempotent, on every state and so on a
freshly constructed aggregator. -/
theorem c11_reset_zeroes_and_is_idempotent {F : Type} (v : NodeEnergy F) :
    v.ResetCurr.Usage = [] ∧ v.ResetCurr.EnergyInGPU = 0 ∧ v.ResetCurr.EnergyInOther = 0 ∧
    v.ResetCurr.GetPrometheusEnergyValue "core" = 0 ∧
    v.ResetCurr.GetPrometheusEnergyValue "dram" = 0 ∧
    v.ResetCurr.GetPrometheusEnergyValue "uncore" = 0 ∧
    v.ResetCurr.GetPrometheusEnergyValue "pkg" = 0 ∧
    v.ResetCurr.GetPrometheusEnergyValue "gpu" = 0 ∧
    v.ResetCurr.GetPrometheusEnergyValue "other" = 0 ∧
    v.ResetCurr.Curr = 0 ∧
    v.ResetCurr.ResetCurr = v.ResetCurr ∧
    (NewNodeEnergy F).ResetCurr.ResetCurr = (NewNodeEnergy F).ResetCurr ∧
    (NewNodeEnergy F).ResetCurr.Curr = 0 := by
  have hcore : v.ResetCurr.EnergyInCore.Curr = 0 := resetCurr_curr v.EnergyInCore
  have hdram : v.ResetCurr.EnergyInDRAM.Curr = 0 := resetCurr_curr v.EnergyInDRAM
  have huncore : v.ResetCurr.EnergyInUncore.Curr = 0 := resetCurr_curr v.EnergyInUncore
  have hpkg : v.ResetCurr.EnergyInPkg.Curr = 0 := resetCurr_curr v.EnergyInPkg
  have hidem : ∀ w : NodeEnergy F, w.ResetCurr.ResetCurr = w.ResetCurr := by
    intro w
    simp only [NodeEnergy.ResetCurr, resetCurr_resetCurr]
  have hcurr : ∀ w : NodeEnergy F, w.ResetCurr.Curr = 0 := by
    intro w
    unfold NodeEnergy.Curr
    have hp : w.ResetCurr.EnergyInPkg.Curr = 0 := resetCurr_curr w.EnergyInPkg
    rw [hp]
    rfl
  refine ⟨rfl, rfl, rfl, ?_, ?_, ?_, ?_, ?_, ?_, hcurr v, hidem v, hidem _, hcurr _⟩
  · rw [prometheus_core, hcore, hdram, huncore, hpkg, if_pos rfl, subU64_zero_zero]
  · rw [prometheus_dram, hdram, hcore, if_pos rfl, if_neg (by decide)]
  · rw [prometheus_uncore, huncore]
  · rw [prometheus_pkg, hpkg]
  · rw [prometheus_gpu]
    rfl
  · rw [prometheus_other]
    rfl

/-- C12: on a freshly constructed aggregator `GetPrometheusEnergyValue` is 0
for every key string, recognised or not, and `Curr` is 0. -/
theorem c12_fresh_aggregator_is_zero (F : Type) (ekey : String) :
    (NewNodeEnergy F).GetPrometheusEnergyValue ekey = 0 ∧ (NewNodeEnergy F).Curr = 0 := by
  constructor
  · have hget : (NewNodeEnergy F).getEnergyValue ekey = 0 := by
      unfold NodeEnergy.getEnergyValue
      repeat' split
      all_goals rfl
    have hcore : (NewNodeEnergy F).EnergyInCore.Curr = 0 := rfl
    have hdram : (NewNodeEnergy F).EnergyInDRAM.Curr = 0 := rfl
    have huncore : (NewNodeEnergy F).EnergyInUncore.Curr = 0 := rfl
    have hpkg : (NewNodeEnergy F).EnergyInPkg.Curr = 0 := rfl
    unfold NodeEnergy.GetPrometheusEnergyValue
    rw [hget, hcore, hdram, huncore, hpkg]
    dsimp only
    rw [if_pos rfl, subU64_zero_zero, if_neg (Nat.lt_irrefl 0)]
    repeat' split
    all_goals rfl
  · rfl

/-- C13: `GetPrometheusEnergyValue "uncore"` is the uncore total in every
state, zero or not, whatever the package total; and after `SetValues` with GPU
delta `G` and usage map `u`, `GetPrometheusEnergyValue "gpu"` is `G` and the
field `Usage` is `u`. -/
theorem c13_uncore_raw_gpu_and_usage_stored {F : Type} (toUint64 : F → Nat) (v : NodeEnergy F)
    (sensorEnergy : List (String × F)) (pkgEnergy : List (Int × PackageEnergy))
    (G : Nat) (u : List (String × F)) :
    v.GetPrometheusEnergyValue "uncore" = v.EnergyInUncore.Curr ∧
    (v.SetValues toUint64 sensorEnergy pkgEnergy G u).GetPrometheusEnergyValue "gpu" = G ∧
    (v.SetValues toUint64 sensorEnergy pkgEnergy G u).Usage = u := by
  refine ⟨prometheus_uncore v, ?_, ?_⟩
  · rw [prometheus_gpu]
    unfold NodeEnergy.SetValues
    rw [setTotals_gpu]
  · unfold NodeEnergy.SetValues setTotals
    rfl

/-! ## C18 and C19: consistency of the derived totals -/

/-- C18: when at least one of the core and dram totals is zero and the
measured core, dram and uncore totals sum to at most the package total, the
values of `GetPrometheusEnergyValue` at "core", "dram" and "uncore" sum to the
package total, also as a `uint64` sum. -/
theorem c18_no_double_counting {F : Type} (v : NodeEnergy F)
    (hzero : v.EnergyInCore.Curr = 0 ∨ v.EnergyInDRAM.Curr = 0)
    (hsum : v.EnergyInCore.Curr + v.EnergyInDRAM.Curr + v.EnergyInUncore.Curr ≤
      v.EnergyInPkg.Curr) :
    v.GetPrometheusEnergyValue "core" + v.GetPrometheusEnergyValue "dram" +
        v.GetPrometheusEnergyValue "uncore" = v.EnergyInPkg.Curr ∧
    addU64 (addU64 (v.GetPrometheusEnergyValue "core") (v.GetPrometheusEnergyValue "dram"))
        (v.GetPrometheusEnergyValue "uncore") = v.EnergyInPkg.Curr := by
  have hp := curr_lt v.EnergyInPkg
  have key : v.GetPrometheusEnergyValue "core" + v.GetPrometheusEnergyValue "dram" +
      v.GetPrometheusEnergyValue "uncore" = v.EnergyInPkg.Curr := by
    rw [prometheus_core, prometheus_dram, prometheus_uncore]
    generalize v.EnergyInPkg.Curr = p at *
    generalize v.EnergyInCore.Curr = c at *
    generalize v.EnergyInDRAM.Curr = d at *
    generalize v.EnergyInUncore.Curr = u at *
    by_cases hc : c = 0
    · subst hc
      have h1 : subU64 p d = p - d := subU64_of_le (by omega) hp
      have h2 : subU64 (p - d) u = p - d - u := subU64_of_le (by omega) (by omega)
      rw [if_pos rfl, h1, h2]
      by_cases hd : d = 0
      · subst hd
        rw [if_pos rfl, if_neg (Nat.lt_irrefl 0)]
        omega
      · rw [if_neg hd]
        omega
    · have hd : d = 0 := by
        rcases hzero with h | h
        · exact absurd h hc
        · exact h
      subst hd
      have h1 : subU64 p c = p - c := subU64_of_le (by omega) hp
      have h2 : subU64 (p - c) u = p - c - u := subU64_of_le (by omega) (by omega)
      rw [if_neg hc, if_pos rfl, if_pos (Nat.pos_of_ne_zero hc), h1, h2]
      omega
  refine ⟨key, ?_⟩
  have hle : v.GetPrometheusEnergyValue "core" + v.GetPrometheusEnergyValue "dram" ≤
      v.EnergyInPkg.Curr := by omega
  unfold addU64
  rw [Nat.mod_eq_of_lt (lt_of_le_of_lt hle hp), key]
  exact Nat.mod_eq_of_lt hp

/-- C18 at concrete states: with package 100, dram 30, uncore 10 and no core
reading the three values are 60, 30 and 10. -/
theorem c18_no_double_counting_witness :
    derivedCoreState.GetPrometheusEnergyValue "core" +
        derivedCoreState.GetPrometheusEnergyValue "dram" +
        derivedCoreState.GetPrometheusEnergyValue "uncore" = derivedCoreState.EnergyInPkg.Curr ∧
    addU64
        (addU64 (derivedCoreState.GetPrometheusEnergyValue "core")
          (derivedCoreState.GetPrometheusEnergyValue "dram"))
        (derivedCoreState.GetPrometheusEnergyValue "uncore") =
      derivedCoreState.EnergyInPkg.Curr :=
  c18_no_double_counting derivedCoreState (Or.inl (by decide)) (by decide)

/-- C19: after `ResetCurr` followed by `SetValues`, when package total plus
GPU delta stays within the `uint64` range, `Curr` is the larger of the sensor
total and package total plus GPU delta. -/
theorem c19_node_total_is_max {F : Type} (toUint64 : F → Nat) (v : NodeEnergy F)
    (sensorEnergy : List (String × F)) (pkgEnergy : List (Int × PackageEnergy))
    (totalGPUDelta : Nat) (usage : List (String × F))
    (hsum : (v.ResetCurr.SetValues toUint64 sensorEnergy pkgEnergy totalGPUDelta
      usage).EnergyInPkg.Curr + totalGPUDelta < 2 ^ 64) :
    (v.ResetCurr.SetValues toUint64 sensorEnergy pkgEnergy totalGPUDelta usage).Curr =
      max
        (v.ResetCurr.SetValues toUint64 sensorEnergy pkgEnergy totalGPUDelta
          usage).SensorEnergy.Curr
        ((v.ResetCurr.SetValues toUint64 sensorEnergy pkgEnergy totalGPUDelta
          usage).EnergyInPkg.Curr + totalGPUDelta) := by
  have hgpu : (v.ResetCurr.SetValues toUint64 sensorEnergy pkgEnergy totalGPUDelta
      usage).EnergyInGPU = totalGPUDelta := by
    unfold NodeEnergy.SetValues
    rw [setTotals_gpu]
  unfold NodeEnergy.Curr
  rw [hgpu, setValues_other, resetCurr_other]
  have hlt := curr_lt (v.ResetCurr.SetValues toUint64 sensorEnergy pkgEnergy totalGPUDelta
    usage).SensorEnergy
  generalize (v.ResetCurr.SetValues toUint64 sensorEnergy pkgEnergy totalGPUDelta
    usage).SensorEnergy.Curr = s at *
  generalize (v.ResetCurr.SetValues toUint64 sensorEnergy pkgEnergy totalGPUDelta
    usage).EnergyInPkg.Curr = p at *
  have hadd : addU64 p totalGPUDelta = p + totalGPUDelta := Nat.mod_eq_of_lt hsum
  rw [hadd]
  by_cases h : s > p + totalGPUDelta
  · rw [if_pos h, subU64_of_le (le_of_lt h) hlt]
    unfold addU64
    rw [Nat.add_sub_cancel' (le_of_lt h), Nat.mod_eq_of_lt hlt, max_eq_left (le_of_lt h)]
  · rw [if_neg h]
    unfold addU64
    rw [Nat.add_zero, Nat.mod_eq_of_lt hsum, max_eq_right (not_lt.mp h)]

/-- C19 at the scenario of §8 (sensor 500 above 300 + 50, node total 500) and
at a batch with no sensor (node total 100 + 0). -/
theorem c19_node_total_is_max_witness :
    ((NewNodeEnergy Nat).ResetCurr.SetValues id [("s1", 500)] [(0, ⟨0, 100, 20, 300⟩)] 50
        []).Curr =
      max
        ((NewNodeEnergy Nat).ResetCurr.SetValues id [("s1", 500)] [(0, ⟨0, 100, 20, 300⟩)] 50
          []).SensorEnergy.Curr
        (((NewNodeEnergy Nat).ResetCurr.SetValues id [("s1", 500)] [(0, ⟨0, 100, 20, 300⟩)] 50
          []).EnergyInPkg.Curr + 50) :=
  c19_node_total_is_max id (NewNodeEnergy Nat) [("s1", 500)] [(0, ⟨0, 100, 20, 300⟩)] 50 []
    (by decide)

/-! ## C15: the export row -/

theorem foldl_append_singleton {α β : Type} (f : α → β) (l : List α) (init : List β) :
    l.foldl (fun acc x => acc ++ [f x]) init = init ++ l.map f := by
  induction l generalizing init with
  | nil => simp
  | cons x rest ih => simp [ih]

theorem usageUint64_absent {F : Type} (toUint64 : F → Nat) (metric : String)
    (usage : List (String × F)) (h : ∀ e ∈ usage, e.1 ≠ metric) :
    usageUint64 toUint64 metric usage = 0 := by
  induction usage with
  | nil => rfl
  | cons e rest ih =>
    obtain ⟨k, x⟩ := e
    have hk : k ≠ metric := h (k, x) (List.mem_cons_self _ _)
    simp only [usageUint64, if_neg hk]
    exact ih (fun e he => h e (List.mem_cons_of_mem _ he))

/-- C15: `ToPrometheusValues` returns `nodeName`, `cpuArch`, then for each
name of `metricNames`, in order, the decimal text of `uint64(Usage[name])`
("0" for a name the usage map does not hold), then for each key of
`ENERGY_LABEL_KEYS`, in order, the formatted value of
`GetPrometheusEnergyValue key` divided by 1000: in all
`2 + len(metricNames) + len(ENERGY_LABEL_KEYS)` fields. -/
theorem c15_export_row {F : Type} (toUint64 : F → Nat) (float64 : Nat → F)
    (divThousand : F → F) (sprintf : F → String) (nodeName cpuArch : String)
    (metricNames ENERGY_LABEL_KEYS : List String) (v : NodeEnergy F) :
    v.ToPrometheusValues toUint64 float64 divThousand sprintf nodeName cpuArch metricNames
        ENERGY_LABEL_KEYS =
      [nodeName, cpuArch] ++
        metricNames.map (fun metric => FormatUint (usageUint64 toUint64 metric v.Usage)) ++
        ENERGY_LABEL_KEYS.map
          (fun ekey => sprintf (divThousand (float64 (v.GetPrometheusEnergyValue ekey)))) ∧
    (v.ToPrometheusValues toUint64 float64 divThousand sprintf nodeName cpuArch metricNames
        ENERGY_LABEL_KEYS).length = 2 + metricNames.length + ENERGY_LABEL_KEYS.length ∧
    (∀ metric : String, (∀ e ∈ v.Usage, e.1 ≠ metric) →
      FormatUint (usageUint64 toUint64 metric v.Usage) = "0") := by
  have hrow : v.ToPrometheusValues toUint64 float64 divThousand sprintf nodeName cpuArch
      metricNames ENERGY_LABEL_KEYS =
      [nodeName, cpuArch] ++
        metricNames.map (fun metric => FormatUint (usageUint64 toUint64 metric v.Usage)) ++
        ENERGY_LABEL_KEYS.map
          (fun ekey => sprintf (divThousand (float64 (v.GetPrometheusEnergyValue ekey)))) := by
    unfold NodeEnergy.ToPrometheusValues
    dsimp only
    rw [foldl_append_singleton, foldl_append_singleton]
  refine ⟨hrow, ?_, ?_⟩
  · rw [hrow]
    simp only [List.length_append, List.length_map, List.length_cons, List.length_nil]
  · intro metric habsent
    rw [usageUint64_absent toUint64 metric v.Usage habsent]
    decide

/-- C15 at a concrete state with usage map `cpu ↦ 12`, metric names `cpu` and
`mem`, and the six energy keys; the decimal numeral stands in for the
floating-point text. -/
theorem c15_export_row_witness :
    usageState.ToPrometheusValues id id (fun x => x / 1000) toString "node1" "amd64"
        ["cpu", "mem"] ["core", "dram", "uncore", "pkg", "gpu", "other"] =
      ["node1", "amd64", "12", "0", "0", "0", "0", "0", "0", "0"] ∧
    FormatUint (usageUint64 id "mem" usageState.Usage) = "0" :=
  ⟨by
    rw [(c15_export_row id id (fun x => x / 1000) toString "node1" "amd64" ["cpu", "mem"]
      ["core", "dram", "uncore", "pkg", "gpu", "other"] usageState).1]
    decide,
   (c15_export_row id id (fun x => x / 1000) toString "node1" "amd64" ["cpu", "mem"]
      ["core", "dram", "uncore", "pkg", "gpu", "other"] usageState).2.2 "mem" (by decide)⟩

/-! ## `strconv.Itoa` gives distinct package keys to distinct package indices -/

theorem digitValue_digitChar (m : Nat) (h : m < 10) : digitValue (Nat.digitChar m) = m := by
  interval_cases m <;> rfl

theorem digitChar_ne_minus (m : Nat) (h : m < 10) : Nat.digitChar m ≠ '-' := by
  interval_cases m <;> decide

theorem decodeDigits_toDigitsCore (fuel : Nat) :
    ∀ (n : Nat) (ds : List Char), n < fuel →
      decodeDigits 0 (Nat.toDigitsCore 10 fuel n ds) = decodeDigits n ds := by
  induction fuel with
  | zero => intro n ds h; omega
  | succ fuel ih =>
    intro n ds h
    rw [Nat.toDigitsCore]
    have hd : digitValue (Nat.digitChar (n % 10)) = n % 10 :=
      digitValue_digitChar _ (Nat.mod_lt _ (by decide))
    by_cases h0 : n / 10 = 0
    · rw [if_pos h0]
      have hn : n % 10 = n := Nat.mod_eq_of_lt (by omega)
      rw [hn] at hd
      simp only [decodeDigits, List.foldl_cons, hn, hd, Nat.zero_mul, Nat.zero_add]
    · rw [if_neg h0, ih (n / 10) _ (by omega)]
      have hn : n / 10 * 10 + n % 10 = n := by omega
      simp only [decodeDigits, List.foldl_cons, hd, hn]

theorem toDigitsCore_no_minus (fuel : Nat) :
    ∀ (n : Nat) (ds : List Char), (∀ c ∈ ds, c ≠ '-') →
      ∀ c ∈ Nat.toDigitsCore 10 fuel n ds, c ≠ '-' := by
  induction fuel with
  | zero => intro n ds h; simpa [Nat.toDigitsCore] using h
  | succ fuel ih =>
    intro n ds h
    have hcons : ∀ c ∈ Nat.digitChar (n % 10) :: ds, c ≠ '-' := by
      intro c hc
      rcases List.mem_cons.mp hc with rfl | hc
      · exact digitChar_ne_minus _ (Nat.mod_lt _ (by decide))
      · exact h c hc
    rw [Nat.toDigitsCore]
    by_cases h0 : n / 10 = 0
    · rw [if_pos h0]
      exact hcons
    · rw [if_neg h0]
      exact ih _ _ hcons

theorem toDigits_injective (a b : Nat) (h : Nat.toDigits 10 a = Nat.toDigits 10 b) : a = b := by
  have ha := decodeDigits_toDigitsCore (a + 1) a [] (Nat.lt_succ_self a)
  have hb := decodeDigits_toDigitsCore (b + 1) b [] (Nat.lt_succ_self b)
  unfold Nat.toDigits at h
  rw [h, hb] at ha
  simpa [decodeDigits] using ha.symm

theorem Itoa_injective (i j : Int) (h : Itoa i = Itoa j) : i = j := by
  have hdata := congrArg String.data h
  cases i with
  | ofNat a =>
    cases j with
    | ofNat b =>
      have hab : Nat.toDigits 10 a = Nat.toDigits 10 b := hdata
      rw [toDigits_injective a b hab]
    | negSucc b =>
      have hab : Nat.toDigits 10 a = '-' :: Nat.toDigits 10 (b + 1) := hdata
      have hmem : '-' ∈ Nat.toDigits 10 a := by rw [hab]; exact List.mem_cons_self _ _
      exact absurd rfl (toDigitsCore_no_minus (a + 1) a [] (by simp) _ hmem)
  | negSucc a =>
    cases j with
    | ofNat b =>
      have hab : '-' :: Nat.toDigits 10 (a + 1) = Nat.toDigits 10 b := hdata
      have hmem : '-' ∈ Nat.toDigits 10 b := by rw [← hab]; exact List.mem_cons_self _ _
      exact absurd rfl (toDigitsCore_no_minus (b + 1) b [] (by simp) _ hmem)
    | negSucc b =>
      have hab : '-' :: Nat.toDigits 10 (a + 1) = '-' :: Nat.toDigits 10 (b + 1) := hdata
      have hab2 := toDigits_injective (a + 1) (b + 1) (List.cons.inj hab).2
      have : a = b := by omega
      rw [this]

/-! ## Lookups after `AddStat` and `ResetCurr` -/

theorem statLookup_statUpdate (k key : String) (r : Nat) (l : List (String × UInt64Stat)) :
    statLookup k (statUpdate key r l) =
      if key = k then
        some (UInt64Stat.update ((statLookup k l).getD { Curr := 0, previousRaw := 0 }) r)
      else statLookup k l := by
  induction l with
  | nil =>
    by_cases h : key = k
    · simp [statUpdate, statLookup, h]
    · simp [statUpdate, statLookup, h]
  | cons e rest ih =>
    obtain ⟨a, s⟩ := e
    by_cases ha : a = key
    · subst ha
      by_cases h : a = k
      · simp [statUpdate, statLookup, h]
      · simp [statUpdate, statLookup, h]
    · by_cases h : key = k
      · subst h
        simp [statUpdate, statLookup, ha, ih]
      · by_cases hak : a = k
        · subst hak
          simp [statUpdate, statLookup, ha, h]
        · simp [statUpdate, statLookup, ha, h, hak, ih]

theorem statLookup_foldl_absent (k : String) (rs : List (String × Nat)) :
    ∀ st : List (String × UInt64Stat), (∀ e ∈ rs, e.1 ≠ k) →
      statLookup k (rs.foldl (fun st e => statUpdate e.1 e.2 st) st) = statLookup k st := by
  induction rs with
  | nil => intro st _; rfl
  | cons e rest ih =>
    intro st h
    rw [List.foldl_cons, ih _ (fun x hx => h x (List.mem_cons_of_mem _ hx)),
      statLookup_statUpdate, if_neg (h e (List.mem_cons_self _ _))]

theorem statLookup_foldl_fed (k : String) (r : Nat) (rs : List (String × Nat)) :
    ∀ st : List (String × UInt64Stat), (rs.map Prod.fst).Nodup → (k, r) ∈ rs →
      statLookup k (rs.foldl (fun st e => statUpdate e.1 e.2 st) st) =
        some (UInt64Stat.update ((statLookup k st).getD { Curr := 0, previousRaw := 0 }) r) := by
  induction rs with
  | nil => intro st _ h; simp at h
  | cons e rest ih =>
    intro st hnd hmem
    rw [List.map_cons, List.nodup_cons] at hnd
    rw [List.foldl_cons]
    rcases List.mem_cons.mp hmem with heq | hin
    · subst heq
      have habs : ∀ x ∈ rest, x.1 ≠ k := by
        intro x hx hxk
        have hmem : x.1 ∈ rest.map Prod.fst := List.mem_map_of_mem Prod.fst hx
        rw [hxk] at hmem
        exact hnd.1 hmem
      rw [statLookup_foldl_absent k rest _ habs, statLookup_statUpdate, if_pos rfl]
    · have hne : e.1 ≠ k := by
        intro hek
        have hmem : (k, r).1 ∈ rest.map Prod.fst := List.mem_map_of_mem Prod.fst hin
        rw [← hek] at hmem
        exact hnd.1 hmem
      rw [ih _ hnd.2 hin, statLookup_statUpdate, if_neg hne]

theorem statLookup_resetCurr (k : String) (c : UInt64StatCollection) :
    statLookup k c.ResetCurr.Stat = (statLookup k c.Stat).map (fun s => { s with Curr := 0 }) := by
  unfold UInt64StatCollection.ResetCurr
  dsimp only
  induction c.Stat with
  | nil => rfl
  | cons e rest ih =>
    obtain ⟨a, s⟩ := e
    by_cases h : a = k
    · simp [statLookup, h]
    · simp [statLookup, h, ih]

theorem update_resetCurr (k : String) (c : UInt64StatCollection) (r : Nat) :
    UInt64Stat.update ((statLookup k c.ResetCurr.Stat).getD { Curr := 0, previousRaw := 0 }) r =
      UInt64Stat.update ((statLookup k c.Stat).getD { Curr := 0, previousRaw := 0 }) r := by
  rw [statLookup_resetCurr]
  cases statLookup k c.Stat with
  | none => rfl
  | some s => rfl

/-! ## The collections after `SetValues` -/

theorem foldl_proj {α β γ : Type} (proj : α → γ) (step : α → β → α) (g : γ → β → γ)
    (h : ∀ a b, proj (step a b) = g (proj a) b) (l : List β) :
    ∀ a : α, proj (l.foldl step a) = l.foldl g (proj a) := by
  induction l with
  | nil => intro a; rfl
  | cons b rest ih => intro a; rw [List.foldl_cons, ih, h, List.foldl_cons]

theorem setTotals_collection {F : Type} (v : NodeEnergy F) (g : Nat) (u : List (String × F))
    (d : Domain) : (setTotals v g u).collection d = v.collection d := by
  cases d
  · exact setTotals_sensor v g u
  · exact setTotals_core v g u
  · exact setTotals_dram v g u
  · exact setTotals_uncore v g u
  · exact setTotals_pkg v g u

theorem setValues_collection {F : Type} (toUint64 : F → Nat) (v : NodeEnergy F)
    (sensorEnergy : List (String × F)) (pkgEnergy : List (Int × PackageEnergy))
    (G : Nat) (u : List (String × F)) (d : Domain) :
    ((v.SetValues toUint64 sensorEnergy pkgEnergy G u).collection d).Stat =
      (readings toUint64 sensorEnergy pkgEnergy d).foldl (fun st e => statUpdate e.1 e.2 st)
        (v.collection d).Stat := by
  unfold NodeEnergy.SetValues
  rw [setTotals_collection]
  cases d
  · show (List.foldl addPkg (List.foldl (addSensor toUint64) v sensorEnergy)
      pkgEnergy).SensorEnergy.Stat = _
    rw [foldl_proj (fun w : NodeEnergy F => w.SensorEnergy.Stat) addPkg (fun st _ => st)
        (fun _ _ => rfl) pkgEnergy,
      foldl_proj (fun w : NodeEnergy F => w.SensorEnergy.Stat) (addSensor toUint64)
        (fun st e => statUpdate e.1 (toUint64 e.2 % 2 ^ 64) st) (fun _ _ => rfl) sensorEnergy]
    have hconst : ∀ (l : List (Int × PackageEnergy)) (st : List (String × UInt64Stat)),
        l.foldl (fun st _ => st) st = st := by
      intro l
      induction l with
      | nil => intro st; rfl
      | cons _ _ ih => intro st; exact ih st
    rw [hconst]
    simp only [readings, List.foldl_map]
    rfl
  · show (List.foldl addPkg (List.foldl (addSensor toUint64) v sensorEnergy)
      pkgEnergy).EnergyInCore.Stat = _
    rw [foldl_proj (fun w : NodeEnergy F => w.EnergyInCore.Stat) addPkg
        (fun st e => statUpdate (Itoa e.1) e.2.Core st) (fun _ _ => rfl) pkgEnergy,
      foldl_proj (fun w : NodeEnergy F => w.EnergyInCore.Stat) (addSensor toUint64)
        (fun st _ => st) (fun _ _ => rfl) sensorEnergy]
    have hconst : ∀ (l : List (String × F)) (st : List (String × UInt64Stat)),
        l.foldl (fun st _ => st) st = st := by
      intro l
      induction l with
      | nil => intro st; rfl
      | cons _ _ ih => intro st; exact ih st
    rw [hconst]
    simp only [readings, List.foldl_map]
    rfl
  · show (List.foldl addPkg (List.foldl (addSensor toUint64) v sensorEnergy)
      pkgEnergy).EnergyInDRAM.Stat = _
    rw [foldl_proj (fun w : NodeEnergy F => w.EnergyInDRAM.Stat) addPkg
        (fun st e => statUpdate (Itoa e.1) e.2.DRAM st) (fun _ _ => rfl) pkgEnergy,
      foldl_proj (fun w : NodeEnergy F => w.EnergyInDRAM.Stat) (addSensor toUint64)
        (fun st _ => st) (fun _ _ => rfl) sensorEnergy]
    have hconst : ∀ (l : List (String × F)) (st : List (String × UInt64Stat)),
        l.foldl (fun st _ => st) st = st := by
      intro l
      induction l with
      | nil => intro st; rfl
      | cons _ _ ih => intro st; exact ih st
    rw [hconst]
    simp only [readings, List.foldl_map]
    rfl
  · show (List.foldl addPkg (List.foldl (addSensor toUint64) v sensorEnergy)
      pkgEnergy).EnergyInUncore.Stat = _
    rw [foldl_proj (fun w : NodeEnergy F => w.EnergyInUncore.Stat) addPkg
        (fun st e => statUpdate (Itoa e.1) e.2.Uncore st) (fun _ _ => rfl) pkgEnergy,
      foldl_proj (fun w : NodeEnergy F => w.EnergyInUncore.Stat) (addSensor toUint64)
        (fun st _ => st) (fun _ _ => rfl) sensorEnergy]
    have hconst : ∀ (l : List (String × F)) (st : List (String × UInt64Stat)),
        l.foldl (fun st _ => st) st = st := by
      intro l
      induction l with
      | nil => intro st; rfl
      | cons _ _ ih => intro st; exact ih st
    rw [hconst]
    simp only [readings, List.foldl_map]
    rfl
  · show (List.foldl addPkg (List.foldl (addSensor toUint64) v sensorEnergy)
      pkgEnergy).EnergyInPkg.Stat = _
    rw [foldl_proj (fun w : NodeEnergy F => w.EnergyInPkg.Stat) addPkg
        (fun st e => statUpdate (Itoa e.1) e.2.Pkg st) (fun _ _ => rfl) pkgEnergy,
      foldl_proj (fun w : NodeEnergy F => w.EnergyInPkg.Stat) (addSensor toUint64)
        (fun st _ => st) (fun _ _ => rfl) sensorEnergy]
    have hconst : ∀ (l : List (String × F)) (st : List (String × UInt64Stat)),
        l.foldl (fun st _ => st) st = st := by
      intro l
      induction l with
      | nil => intro st; rfl
      | cons _ _ ih => intro st; exact ih st
    rw [hconst]
    simp only [readings, List.foldl_map]
    rfl

theorem readings_keys_nodup {F : Type} (toUint64 : F → Nat) (sensorEnergy : List (String × F))
    (pkgEnergy : List (Int × PackageEnergy)) (hs : (sensorEnergy.map Prod.fst).Nodup)
    (hp : (pkgEnergy.map Prod.fst).Nodup) (d : Domain) :
    ((readings toUint64 sensorEnergy pkgEnergy d).map Prod.fst).Nodup := by
  have hpk : ((pkgEnergy.map Prod.fst).map Itoa).Nodup :=
    List.Nodup.map (fun i j h => Itoa_injective i j h) hp
  cases d
  · simpa [readings, List.map_map, Function.comp_def] using hs
  · simpa [readings, List.map_map, Function.comp_def] using hpk
  · simpa [readings, List.map_map, Function.comp_def] using hpk
  · simpa [readings, List.map_map, Function.comp_def] using hpk
  · simpa [readings, List.map_map, Function.comp_def] using hpk

/-! ## C16 and C17: the delta recorded for one entity -/

theorem resetCurr_collection {F : Type} (v : NodeEnergy F) (d : Domain) :
    v.ResetCurr.collection d = (v.collection d).ResetCurr := by
  cases d <;> rfl

theorem apply_lookup_fed {F : Type} (toUint64 : F → Nat) (v : NodeEnergy F) (b : Batch F)
    (d : Domain) (k : String) (r : Nat) (h : b.Feeds toUint64 d k r) :
    statLookup k ((v.apply toUint64 b).collection d).Stat =
      some (UInt64Stat.update
        ((statLookup k (v.collection d).Stat).getD { Curr := 0, previousRaw := 0 }) r) := by
  unfold NodeEnergy.apply
  rw [setValues_collection]
  exact statLookup_foldl_fed k r _ _
    (readings_keys_nodup toUint64 b.sensorEnergy b.pkgEnergy h.1.1 h.1.2 d) h.2

theorem interval_lookup_fed {F : Type} (toUint64 : F → Nat) (v : NodeEnergy F) (b : Batch F)
    (d : Domain) (k : String) (r : Nat) (h : b.Feeds toUint64 d k r) :
    statLookup k ((interval toUint64 v b).collection d).Stat =
      some (UInt64Stat.update
        ((statLookup k (v.collection d).Stat).getD { Curr := 0, previousRaw := 0 }) r) := by
  unfold interval
  rw [apply_lookup_fed toUint64 v.ResetCurr b d k r h, resetCurr_collection, update_resetCurr]

theorem getLast_getD_cons (r x : Nat) (rs : List Nat) :
    (r :: rs).getLast?.getD x = rs.getLast?.getD r := by
  cases rs with
  | nil => rfl
  | cons a t => simp [List.getLast?_cons_cons, List.getLast?_eq_getLast]

theorem foldl_interval_previousRaw {F : Type} (toUint64 : F → Nat) (d : Domain) (k : String)
    (bs : List (Batch F)) (rs : List Nat) (hbs : List.Forall₂ (Batch.Feeds toUint64 d k) bs rs) :
    ∀ v : NodeEnergy F,
      ((statLookup k ((bs.foldl (interval toUint64) v).collection d).Stat).getD
          { Curr := 0, previousRaw := 0 }).previousRaw =
        rs.getLast?.getD
          ((statLookup k (v.collection d).Stat).getD { Curr := 0, previousRaw := 0 }).previousRaw := by
  induction hbs with
  | nil => intro v; rfl
  | cons hfed _ ih =>
    intro v
    rw [List.foldl_cons, ih, interval_lookup_fed toUint64 v _ d k _ hfed, getLast_getD_cons]
    rfl

/-- C16: on a freshly constructed aggregator, when successive intervals
(`ResetCurr`, then `SetValues`) give an entity the raw readings
`r1 ≤ r2 ≤ … ≤ rn`, the entry recorded for the entity after the last of them
holds the delta `rn - r(n-1)`, with `r0 = 0`; every prefix of such a sequence
is one, so this is the delta after each call. A reading equal to the previous
one gives delta 0. -/
theorem c16_delta_of_nondecreasing_readings {F : Type} (toUint64 : F → Nat) (d : Domain)
    (k : String) (bs : List (Batch F)) (rs : List Nat) (b : Batch F) (r : Nat)
    (hbs : List.Forall₂ (Batch.Feeds toUint64 d k) bs rs) (hb : b.Feeds toUint64 d k r)
    (hmono : List.Chain' (fun x y => x ≤ y) (rs ++ [r])) :
    statLookup k ((run toUint64 (bs ++ [b])).collection d).Stat =
        some { Curr := r - rs.getLast?.getD 0, previousRaw := r } ∧
    (rs.getLast? = some r →
      statLookup k ((run toUint64 (bs ++ [b])).collection d).Stat =
        some { Curr := 0, previousRaw := r }) := by
  have hprev := foldl_interval_previousRaw toUint64 d k bs rs hbs (NewNodeEnergy F)
  have hfresh : ((statLookup k ((NewNodeEnergy F).collection d).Stat).getD
      { Curr := 0, previousRaw := 0 }).previousRaw = 0 := by
    cases d <;> rfl
  rw [hfresh] at hprev
  have hle : rs.getLast?.getD 0 ≤ r := by
    cases hlast : rs.getLast? with
    | none => exact Nat.zero_le r
    | some x =>
      have hsplit := (List.chain'_append.mp hmono).2.2
      exact hsplit x (by rw [hlast]; rfl) r (by simp)
  have hmain : statLookup k ((run toUint64 (bs ++ [b])).collection d).Stat =
      some { Curr := r - rs.getLast?.getD 0, previousRaw := r } := by
    unfold run
    rw [List.foldl_append, List.foldl_cons, List.foldl_nil,
      interval_lookup_fed toUint64 _ b d k r hb]
    unfold UInt64Stat.update
    rw [hprev, if_pos hle]
  refine ⟨hmain, fun hlast => ?_⟩
  rw [hmain, hlast]
  simp

/-- C16 for the sensor `s1` fed 100, 250 and 250: the delta after the second
call is 150 and after the third is 0. -/
theorem c16_delta_of_nondecreasing_readings_witness :
    statLookup "s1"
        ((run id [sensorBatch 100, sensorBatch 250]).collection Domain.sensor).Stat =
      some { Curr := 150, previousRaw := 250 } ∧
    statLookup "s1"
        ((run id [sensorBatch 100, sensorBatch 250, sensorBatch 250]).collection
          Domain.sensor).Stat =
      some { Curr := 0, previousRaw := 250 } :=
  ⟨(c16_delta_of_nondecreasing_readings id Domain.sensor "s1" [sensorBatch 100] [100]
      (sensorBatch 250) 250
      (List.Forall₂.cons (by simp [Batch.Feeds, Batch.WellFormed, sensorBatch, readings])
        List.Forall₂.nil)
      (by simp [Batch.Feeds, Batch.WellFormed, sensorBatch, readings]) (by simp)).1,
   (c16_delta_of_nondecreasing_readings id Domain.sensor "s1"
      [sensorBatch 100, sensorBatch 250] [100, 250] (sensorBatch 250) 250
      (List.Forall₂.cons (by simp [Batch.Feeds, Batch.WellFormed, sensorBatch, readings])
        (List.Forall₂.cons (by simp [Batch.Feeds, Batch.WellFormed, sensorBatch, readings])
          List.Forall₂.nil))
      (by simp [Batch.Feeds, Batch.WellFormed, sensorBatch, readings]) (by simp)).2 rfl⟩

/-- C17: when one `SetValues` call gives an entity the raw reading `r1` and
the next call gives it a smaller reading `r2`, the entry recorded for the
entity after the second call holds the delta `r2`, whether or not `ResetCurr`
runs before each call. -/
theorem c17_decrease_restarts_counter {F : Type} (toUint64 : F → Nat) (d : Domain)
    (k : String) (v : NodeEnergy F) (b1 b2 : Batch F) (r1 r2 : Nat)
    (h1 : b1.Feeds toUint64 d k r1) (h2 : b2.Feeds toUint64 d k r2) (hlt : r2 < r1) :
    statLookup k ((interval toUint64 (interval toUint64 v b1) b2).collection d).Stat =
        some { Curr := r2, previousRaw := r2 } ∧
    statLookup k (((v.apply toUint64 b1).apply toUint64 b2).collection d).Stat =
        some { Curr := r2, previousRaw := r2 } := by
  have hnot : ¬ r2 ≥ r1 := by omega
  constructor
  · rw [interval_lookup_fed toUint64 _ b2 d k r2 h2, interval_lookup_fed toUint64 v b1 d k r1 h1]
    simp [UInt64Stat.update, hnot]
  · rw [apply_lookup_fed toUint64 _ b2 d k r2 h2, apply_lookup_fed toUint64 v b1 d k r1 h1]
    simp [UInt64Stat.update, hnot]

/-- C17 for the sensor `s1` reading 1000 and then 50: the delta is 50. -/
theorem c17_decrease_restarts_counter_witness :
    statLookup "s1"
        ((interval id (interval id (NewNodeEnergy Nat) (sensorBatch 1000))
          (sensorBatch 50)).collection Domain.sensor).Stat =
      some { Curr := 50, previousRaw := 50 } ∧
    statLookup "s1"
        ((((NewNodeEnergy Nat).apply id (sensorBatch 1000)).apply id
          (sensorBatch 50)).collection Domain.sensor).Stat =
      some { Curr := 50, previousRaw := 50 } :=
  c17_decrease_restarts_counter id Domain.sensor "s1" (NewNodeEnergy Nat) (sensorBatch 1000)
    (sensorBatch 50) 1000 50 (by simp [Batch.Feeds, Batch.WellFormed, sensorBatch, readings])
    (by simp [Batch.Feeds, Batch.WellFormed, sensorBatch, readings]) (by decide)

/-! ## C14: the order in which the input maps are visited -/

theorem statUpdate_keys (key : String) (r : Nat) (l : List (String × UInt64Stat)) :
    (statUpdate key r l).map Prod.fst =
      if key ∈ l.map Prod.fst then l.map Prod.fst else l.map Prod.fst ++ [key] := by
  induction l with
  | nil => simp [statUpdate]
  | cons e rest ih =>
    obtain ⟨a, s⟩ := e
    by_cases ha : a = key
    · subst ha
      simp [statUpdate]
    · have hne : ¬ key = a := fun h => ha h.symm
      by_cases hin : key ∈ rest.map Prod.fst
      · rw [if_pos hin] at ih
        have hin2 : key ∈ ((a, s) :: rest).map Prod.fst := by
          rw [List.map_cons]; exact List.mem_cons_of_mem _ hin
        rw [if_pos hin2]
        simp only [statUpdate, if_neg ha, List.map_cons, ih]
      · rw [if_neg hin] at ih
        have hin2 : ¬ key ∈ ((a, s) :: rest).map Prod.fst := by
          rw [List.map_cons, List.mem_cons]
          rintro (h | h)
          · exact hne h
          · exact hin h
        rw [if_neg hin2]
        simp only [statUpdate, if_neg ha, List.map_cons, ih, List.cons_append]

theorem statUpdate_nodup (key : String) (r : Nat) (l : List (String × UInt64Stat))
    (h : (l.map Prod.fst).Nodup) : ((statUpdate key r l).map Prod.fst).Nodup := by
  rw [statUpdate_keys]
  by_cases hin : key ∈ l.map Prod.fst
  · rw [if_pos hin]; exact h
  · rw [if_neg hin]
    exact List.Nodup.append h (List.nodup_singleton key)
      (by
        intro x hx hx2
        rw [List.mem_singleton] at hx2
        exact hin (hx2 ▸ hx))

theorem statUpdate_perm (key : String) (r : Nat) {l1 l2 : List (String × UInt64Stat)}
    (hp : l1.Perm l2) (hnd : (l1.map Prod.fst).Nodup) :
    (statUpdate key r l1).Perm (statUpdate key r l2) := by
  induction hp with
  | nil => exact List.Perm.refl _
  | cons x _ ih =>
    obtain ⟨a, s⟩ := x
    rw [List.map_cons, List.nodup_cons] at hnd
    by_cases ha : a = key
    · simp only [statUpdate, if_pos ha]
      exact List.Perm.cons _ (by assumption)
    · simp only [statUpdate, if_neg ha]
      exact List.Perm.cons _ (ih hnd.2)
  | swap x y l =>
    obtain ⟨a, s⟩ := x
    obtain ⟨c, t⟩ := y
    have hne : c ≠ a := by
      intro hca
      rw [List.map_cons, List.nodup_cons] at hnd
      apply hnd.1
      rw [List.map_cons, hca]
      exact List.mem_cons_self _ _
    by_cases hc : c = key
    · have ha : ¬ a = key := fun h => hne (hc.trans h.symm)
      simp only [statUpdate, if_pos hc, if_neg ha]
      exact List.Perm.swap _ _ _
    · by_cases ha : a = key
      · simp only [statUpdate, if_pos ha, if_neg hc]
        exact List.Perm.swap _ _ _
      · simp only [statUpdate, if_neg ha, if_neg hc]
        exact List.Perm.swap _ _ _
  | trans h12 _ ih1 ih2 =>
    exact (ih1 hnd).trans (ih2 ((h12.map Prod.fst).nodup_iff.mp hnd))

theorem statUpdate_comm (k1 k2 : String) (r1 r2 : Nat) (hne : k1 ≠ k2)
    (l : List (String × UInt64Stat)) :
    (statUpdate k1 r1 (statUpdate k2 r2 l)).Perm (statUpdate k2 r2 (statUpdate k1 r1 l)) := by
  have hne2 : ¬ k2 = k1 := fun h => hne h.symm
  induction l with
  | nil =>
    simp only [statUpdate, if_neg hne, if_neg hne2]
    exact List.Perm.swap _ _ _
  | cons e rest ih =>
    obtain ⟨a, s⟩ := e
    by_cases h1 : a = k1
    · have h2 : ¬ a = k2 := fun h => hne (h1.symm.trans h)
      simp only [statUpdate, if_pos h1, if_neg h2]
      exact List.Perm.refl _
    · by_cases h2 : a = k2
      · simp only [statUpdate, if_pos h2, if_neg h1]
        exact List.Perm.refl _
      · simp only [statUpdate, if_neg h1, if_neg h2]
        exact List.Perm.cons _ ih

theorem foldl_statUpdate_nodup (rs : List (String × Nat)) :
    ∀ st : List (String × UInt64Stat), (st.map Prod.fst).Nodup →
      ((rs.foldl (fun st e => statUpdate e.1 e.2 st) st).map Prod.fst).Nodup := by
  induction rs with
  | nil => intro st h; exact h
  | cons e rest ih =>
    intro st h
    rw [List.foldl_cons]
    exact ih _ (statUpdate_nodup e.1 e.2 st h)

theorem foldl_statUpdate_perm_state (rs : List (String × Nat)) :
    ∀ st1 st2 : List (String × UInt64Stat), st1.Perm st2 → (st1.map Prod.fst).Nodup →
      (rs.foldl (fun st e => statUpdate e.1 e.2 st) st1).Perm
        (rs.foldl (fun st e => statUpdate e.1 e.2 st) st2) := by
  induction rs with
  | nil => intro st1 st2 h _; exact h
  | cons e rest ih =>
    intro st1 st2 hp hnd
    rw [List.foldl_cons, List.foldl_cons]
    exact ih _ _ (statUpdate_perm e.1 e.2 hp hnd) (statUpdate_nodup e.1 e.2 st1 hnd)

theorem foldl_statUpdate_perm_input {rs1 rs2 : List (String × Nat)} (hp : rs1.Perm rs2)
    (hnd : (rs1.map Prod.fst).Nodup) :
    ∀ st : List (String × UInt64Stat), (st.map Prod.fst).Nodup →
      (rs1.foldl (fun st e => statUpdate e.1 e.2 st) st).Perm
        (rs2.foldl (fun st e => statUpdate e.1 e.2 st) st) := by
  induction hp with
  | nil => intro st _; exact List.Perm.refl _
  | cons x _ ih =>
    intro st hst
    rw [List.map_cons, List.nodup_cons] at hnd
    rw [List.foldl_cons, List.foldl_cons]
    exact ih hnd.2 _ (statUpdate_nodup x.1 x.2 st hst)
  | swap x y l =>
    intro st hst
    have hne : y.1 ≠ x.1 := by
      intro hyx
      rw [List.map_cons, List.nodup_cons] at hnd
      apply hnd.1
      rw [List.map_cons, hyx]
      exact List.mem_cons_self _ _
    rw [List.foldl_cons, List.foldl_cons, List.foldl_cons, List.foldl_cons]
    exact foldl_statUpdate_perm_state l _ _
      (statUpdate_comm x.1 y.1 x.2 y.2 (fun h => hne h.symm) st)
      (statUpdate_nodup x.1 x.2 _ (statUpdate_nodup y.1 y.2 st hst))
  | trans h12 _ ih1 ih2 =>
    intro st hst
    exact (ih1 hnd st hst).trans (ih2 ((h12.map Prod.fst).nodup_iff.mp hnd) st hst)

theorem readings_perm {F : Type} (toUint64 : F → Nat) {s1 s2 : List (String × F)}
    {p1 p2 : List (Int × PackageEnergy)} (hs : s1.Perm s2) (hp : p1.Perm p2) (d : Domain) :
    (readings toUint64 s1 p1 d).Perm (readings toUint64 s2 p2 d) := by
  cases d
  · exact hs.map _
  · exact hp.map _
  · exact hp.map _
  · exact hp.map _
  · exact hp.map _

theorem curr_perm {c1 c2 : UInt64StatCollection} (h : c1.Stat.Perm c2.Stat) :
    c1.Curr = c2.Curr := by
  unfold UInt64StatCollection.Curr
  rw [(h.map (fun e => e.2.Curr)).sum_eq]

theorem statLookup_eq_some_iff (k : String) (s : UInt64Stat) (l : List (String × UInt64Stat))
    (hnd : (l.map Prod.fst).Nodup) : statLookup k l = some s ↔ (k, s) ∈ l := by
  induction l with
  | nil => simp [statLookup]
  | cons e rest ih =>
    obtain ⟨a, t⟩ := e
    rw [List.map_cons, List.nodup_cons] at hnd
    by_cases ha : a = k
    · subst ha
      have hlook : statLookup a ((a, t) :: rest) = some t := by simp [statLookup]
      rw [hlook, List.mem_cons]
      constructor
      · intro h
        exact Or.inl (by rw [Option.some.inj h])
      · rintro (h | h)
        · rw [(Prod.mk.inj h).2]
        · exact absurd (List.mem_map_of_mem Prod.fst h) hnd.1
    · have hne : ¬ k = a := fun h => ha h.symm
      simp only [statLookup, if_neg ha, List.mem_cons, Prod.mk.injEq, hne, false_and, false_or]
      exact ih hnd.2

theorem statLookup_perm (k : String) {l1 l2 : List (String × UInt64Stat)} (hp : l1.Perm l2)
    (hnd : (l1.map Prod.fst).Nodup) : statLookup k l1 = statLookup k l2 := by
  have hnd2 : (l2.map Prod.fst).Nodup := (hp.map Prod.fst).nodup_iff.mp hnd
  apply Option.ext
  intro s
  show statLookup k l1 = some s ↔ statLookup k l2 = some s
  rw [statLookup_eq_some_iff k s l1 hnd, statLookup_eq_some_iff k s l2 hnd2]
  exact hp.mem_iff

theorem setValues_collection_perm {F : Type} (toUint64 : F → Nat) (v : NodeEnergy F)
    (hv : v.WellFormed) {s1 s2 : List (String × F)} {p1 p2 : List (Int × PackageEnergy)}
    (G : Nat) (u : List (String × F)) (hs : s1.Perm s2) (hp : p1.Perm p2)
    (hsk : (s1.map Prod.fst).Nodup) (hpk : (p1.map Prod.fst).Nodup) (d : Domain) :
    (((v.SetValues toUint64 s1 p1 G u).collection d).Stat).Perm
      (((v.SetValues toUint64 s2 p2 G u).collection d).Stat) := by
  rw [setValues_collection, setValues_collection]
  exact foldl_statUpdate_perm_input (readings_perm toUint64 hs hp d)
    (readings_keys_nodup toUint64 s1 p1 hsk hpk d) _ (hv d)

theorem setValues_wellFormed {F : Type} (toUint64 : F → Nat) (v : NodeEnergy F)
    (hv : v.WellFormed) (s : List (String × F)) (p : List (Int × PackageEnergy))
    (G : Nat) (u : List (String × F)) : (v.SetValues toUint64 s p G u).WellFormed := by
  intro d
  rw [setValues_collection]
  exact foldl_statUpdate_nodup _ _ (hv d)

/-- C14: for a prior state whose collections are Go maps and two enumerations
of the same sensor-reading map and of the same package-reading map (keys
distinct), `SetValues` ends in the same state: the five maps hold the same
entries, so every lookup and every total agrees, and `EnergyInGPU`,
`EnergyInOther` and `Usage` are equal. -/
theorem c14_setValues_order_independent {F : Type} (toUint64 : F → Nat) (v : NodeEnergy F)
    (hv : v.WellFormed) (sensorEnergy1 sensorEnergy2 : List (String × F))
    (pkgEnergy1 pkgEnergy2 : List (Int × PackageEnergy)) (G : Nat) (usage : List (String × F))
    (hs : sensorEnergy1.Perm sensorEnergy2) (hp : pkgEnergy1.Perm pkgEnergy2)
    (hsk : (sensorEnergy1.map Prod.fst).Nodup) (hpk : (pkgEnergy1.map Prod.fst).Nodup) :
    SameState (v.SetValues toUint64 sensorEnergy1 pkgEnergy1 G usage)
        (v.SetValues toUint64 sensorEnergy2 pkgEnergy2 G usage) ∧
    (∀ (d : Domain) (k : String),
      statLookup k ((v.SetValues toUint64 sensorEnergy1 pkgEnergy1 G usage).collection d).Stat =
        statLookup k
          ((v.SetValues toUint64 sensorEnergy2 pkgEnergy2 G usage).collection d).Stat) ∧
    (∀ d : Domain,
      ((v.SetValues toUint64 sensorEnergy1 pkgEnergy1 G usage).collection d).Curr =
        ((v.SetValues toUint64 sensorEnergy2 pkgEnergy2 G usage).collection d).Curr) := by
  have hperm := setValues_collection_perm toUint64 v hv G usage hs hp hsk hpk
  have hwf := setValues_wellFormed toUint64 v hv sensorEnergy1 pkgEnergy1 G usage
  have hcurr : ∀ d : Domain,
      ((v.SetValues toUint64 sensorEnergy1 pkgEnergy1 G usage).collection d).Curr =
        ((v.SetValues toUint64 sensorEnergy2 pkgEnergy2 G usage).collection d).Curr :=
    fun d => curr_perm (hperm d)
  refine ⟨⟨hperm, ?_, ?_, ?_⟩, fun d k => statLookup_perm k (hperm d) (hwf d), hcurr⟩
  · unfold NodeEnergy.SetValues
    rw [setTotals_gpu, setTotals_gpu]
  · have hsensor := hcurr Domain.sensor
    have hpkg := hcurr Domain.pkg
    simp only [NodeEnergy.collection] at hsensor hpkg
    rw [setValues_other, setValues_other, hsensor, hpkg]
  · unfold NodeEnergy.SetValues setTotals
    rfl

/-- C14 at the scenario state with two sensors and two packages visited in
both orders. -/
theorem c14_setValues_order_independent_witness :
    SameState
      (scenarioState.SetValues id [("s1", 700), ("s2", 40)]
        [(0, ⟨0, 150, 30, 400⟩), (1, ⟨10, 20, 30, 90⟩)] 5 [])
      (scenarioState.SetValues id [("s2", 40), ("s1", 700)]
        [(1, ⟨10, 20, 30, 90⟩), (0, ⟨0, 150, 30, 400⟩)] 5 []) :=
  (c14_setValues_order_independent id scenarioState (by intro d; cases d <;> decide)
    [("s1", 700), ("s2", 40)] [("s2", 40), ("s1", 700)]
    [(0, ⟨0, 150, 30, 400⟩), (1, ⟨10, 20, 30, 90⟩)]
    [(1, ⟨10, 20, 30, 90⟩), (0, ⟨0, 150, 30, 400⟩)] 5 []
    (List.Perm.swap _ _ _) (List.Perm.swap _ _ _) (by decide) (by decide)).1

/-! ## C20: per-package and node-level derivation of core -/

theorem statLookup_of_mem_keys (k : String) (l : List (String × UInt64Stat))
    (h : k ∈ l.map Prod.fst) : ∃ s, statLookup k l = some s ∧ (k, s) ∈ l := by
  induction l with
  | nil => simp at h
  | cons e rest ih =>
    obtain ⟨a, t⟩ := e
    by_cases ha : a = k
    · subst ha
      exact ⟨t, by simp [statLookup], List.mem_cons_self _ _⟩
    · have hin : k ∈ rest.map Prod.fst := by
        rw [List.map_cons, List.mem_cons] at h
        rcases h with h | h
        · exact absurd h.symm ha
        · exact h
      obtain ⟨s, hs, hmem⟩ := ih hin
      exact ⟨s, by simp [statLookup, ha, hs], List.mem_cons_of_mem _ hmem⟩

theorem deltaOf_of_lookup (k : String) (l : List (String × UInt64Stat)) (s : UInt64Stat)
    (h : statLookup k l = some s) : deltaOf l k = s.Curr := by
  unfold deltaOf
  rw [h]

theorem getCurrPerPkg_core_zero {F : Type} (v : NodeEnergy F) (k : String)
    (hp : k ∈ v.EnergyInPkg.Stat.map Prod.fst) (hc : k ∈ v.EnergyInCore.Stat.map Prod.fst)
    (hd : k ∈ v.EnergyInDRAM.Stat.map Prod.fst) (hu : k ∈ v.EnergyInUncore.Stat.map Prod.fst)
    (hzero : ∀ e ∈ v.EnergyInCore.Stat, e.2.Curr = 0) :
    v.GetCurrPerPkg k =
      some (subU64 (subU64 (deltaOf v.EnergyInPkg.Stat k) (deltaOf v.EnergyInDRAM.Stat k))
          (deltaOf v.EnergyInUncore.Stat k),
        deltaOf v.EnergyInDRAM.Stat k, deltaOf v.EnergyInUncore.Stat k) := by
  obtain ⟨sp, hsp, _⟩ := statLookup_of_mem_keys k _ hp
  obtain ⟨sc, hsc, hscmem⟩ := statLookup_of_mem_keys k _ hc
  obtain ⟨sd, hsd, _⟩ := statLookup_of_mem_keys k _ hd
  obtain ⟨su, hsu, _⟩ := statLookup_of_mem_keys k _ hu
  have h0 : sc.Curr = 0 := hzero (k, sc) hscmem
  rw [deltaOf_of_lookup k _ sp hsp, deltaOf_of_lookup k _ sd hsd, deltaOf_of_lookup k _ su hsu]
  unfold NodeEnergy.GetCurrPerPkg
  rw [hsp, hsc, hsd, hsu]
  simp [h0]

theorem sumCoreDeltaPerPkg_eq {F : Type} (v : NodeEnergy F)
    (hzero : ∀ e ∈ v.EnergyInCore.Stat, e.2.Curr = 0) (keys : List String)
    (hkeys : ∀ k ∈ keys, k ∈ v.EnergyInPkg.Stat.map Prod.fst ∧
      k ∈ v.EnergyInCore.Stat.map Prod.fst ∧ k ∈ v.EnergyInDRAM.Stat.map Prod.fst ∧
      k ∈ v.EnergyInUncore.Stat.map Prod.fst) :
    sumCoreDeltaPerPkg v keys =
      some ((keys.map (fun k =>
        subU64 (subU64 (deltaOf v.EnergyInPkg.Stat k) (deltaOf v.EnergyInDRAM.Stat k))
          (deltaOf v.EnergyInUncore.Stat k))).sum % 2 ^ 64) := by
  induction keys with
  | nil => rfl
  | cons k rest ih =>
    have hk := hkeys k (List.mem_cons_self _ _)
    have hrest := ih (fun x hx => hkeys x (List.mem_cons_of_mem _ hx))
    simp only [sumCoreDeltaPerPkg, hrest,
      getCurrPerPkg_core_zero v k hk.1 hk.2.1 hk.2.2.1 hk.2.2.2 hzero, List.map_cons,
      List.sum_cons, addU64, Nat.add_mod_mod]

theorem sum_deltaOf_keys (l : List (String × UInt64Stat)) (hnd : (l.map Prod.fst).Nodup)
    (keys : List String) (hkeys : keys.Perm (l.map Prod.fst)) :
    (keys.map (deltaOf l)).sum = (l.map (fun e => e.2.Curr)).sum := by
  rw [(hkeys.map (deltaOf l)).sum_eq, List.map_map]
  congr 1
  apply List.map_congr_left
  intro e he
  obtain ⟨a, s⟩ := e
  exact deltaOf_of_lookup a l s ((statLookup_eq_some_iff a s l hnd).mpr he)

theorem subU64_add_mod (a b : Nat) : (subU64 a b + b) % 2 ^ 64 = a % 2 ^ 64 := by
  unfold subU64
  omega

theorem sum_derived_mod (p d u : String → Nat) (keys : List String) :
    ((keys.map (fun k => subU64 (subU64 (p k) (d k)) (u k))).sum + (keys.map d).sum +
        (keys.map u).sum) % 2 ^ 64 = (keys.map p).sum % 2 ^ 64 := by
  induction keys with
  | nil => rfl
  | cons k rest ih =>
    simp only [List.map_cons, List.sum_cons]
    have h1 := subU64_add_mod (subU64 (p k) (d k)) (u k)
    have h2 := subU64_add_mod (p k) (d k)
    omega

theorem curr_zero_of_all_zero (c : UInt64StatCollection) (h : ∀ e ∈ c.Stat, e.2.Curr = 0) :
    c.Curr = 0 := by
  unfold UInt64StatCollection.Curr
  have hsum : (c.Stat.map (fun e => e.2.Curr)).sum = 0 := by
    apply List.sum_eq_zero
    intro x hx
    obtain ⟨e, he, rfl⟩ := List.mem_map.mp hx
    exact h e he
  rw [hsum]
  rfl

/-- C20: when the core, dram, uncore and pkg collections are Go maps over the
same set of package keys and every package has core delta zero, the `uint64`
sum over all packages of the `coreDelta` returned by `GetCurrPerPkg` is
`GetPrometheusEnergyValue "core"`. -/
theorem c20_per_pkg_core_sum_matches_node {F : Type} (v : NodeEnergy F) (hv : v.WellFormed)
    (keys : List String) (hkeys : keys.Perm (v.EnergyInPkg.Stat.map Prod.fst))
    (hcore : (v.EnergyInCore.Stat.map Prod.fst).Perm (v.EnergyInPkg.Stat.map Prod.fst))
    (hdram : (v.EnergyInDRAM.Stat.map Prod.fst).Perm (v.EnergyInPkg.Stat.map Prod.fst))
    (huncore : (v.EnergyInUncore.Stat.map Prod.fst).Perm (v.EnergyInPkg.Stat.map Prod.fst))
    (hzero : ∀ e ∈ v.EnergyInCore.Stat, e.2.Curr = 0) :
    sumCoreDeltaPerPkg v keys = some (v.GetPrometheusEnergyValue "core") := by
  have hmem : ∀ k ∈ keys, k ∈ v.EnergyInPkg.Stat.map Prod.fst ∧
      k ∈ v.EnergyInCore.Stat.map Prod.fst ∧ k ∈ v.EnergyInDRAM.Stat.map Prod.fst ∧
      k ∈ v.EnergyInUncore.Stat.map Prod.fst := by
    intro k hk
    have hp := hkeys.mem_iff.mp hk
    exact ⟨hp, hcore.mem_iff.mpr hp, hdram.mem_iff.mpr hp, huncore.mem_iff.mpr hp⟩
  rw [sumCoreDeltaPerPkg_eq v hzero keys hmem, prometheus_core,
    if_pos (curr_zero_of_all_zero v.EnergyInCore hzero)]
  have hP := sum_deltaOf_keys v.EnergyInPkg.Stat (hv Domain.pkg) keys hkeys
  have hD := sum_deltaOf_keys v.EnergyInDRAM.Stat (hv Domain.dram) keys (hkeys.trans hdram.symm)
  have hU := sum_deltaOf_keys v.EnergyInUncore.Stat (hv Domain.uncore) keys
    (hkeys.trans huncore.symm)
  have hsum := sum_derived_mod (deltaOf v.EnergyInPkg.Stat) (deltaOf v.EnergyInDRAM.Stat)
    (deltaOf v.EnergyInUncore.Stat) keys
  rw [hP, hD, hU] at hsum
  have h1 := subU64_add_mod (subU64 v.EnergyInPkg.Curr v.EnergyInDRAM.Curr) v.EnergyInUncore.Curr
  have h2 := subU64_add_mod v.EnergyInPkg.Curr v.EnergyInDRAM.Curr
  have h3 := subU64_lt (subU64 v.EnergyInPkg.Curr v.EnergyInDRAM.Curr) v.EnergyInUncore.Curr
  unfold UInt64StatCollection.Curr at h1 h2 h3 ⊢
  congr 1
  omega

/-- C20 at a state with two packages, where the per-package core values
`2 ^ 64 - 50` and 100 add up, modulo `2 ^ 64`, to the node-level 50. -/
theorem c20_per_pkg_core_sum_matches_node_witness :
    sumCoreDeltaPerPkg twoPkgState ["1", "0"] =
      some (twoPkgState.GetPrometheusEnergyValue "core") :=
  c20_per_pkg_core_sum_matches_node twoPkgState (by intro d; cases d <;> decide) ["1", "0"]
    (by decide) (by decide) (by decide) (by decide) (by decide)

end Kepler.Collector
